import Mathlib

/-!
Verification development for the rpg-mcp-server combat engine.

The definitions below are a shallow embedding of the Python sources
`src/utils.py`, `src/repos.py`, `src/tools/combat.py` and the JSON
repositories they use.  JSON dictionaries are modelled as insertion-ordered
association lists over `String` keys, the JSON files of a campaign as a
`World` record, and the random number generator as an explicit stream of
naturals (`List Nat`): each `random.randint(1, sides)` call consumes one
stream element and maps it onto a face in `[1, sides]`, so every face is
attainable and every outcome of the model corresponds to a seedable run of
the original.  Python floats in narrative threshold tests are idealised as
exact rational comparisons written by cross multiplication; no claim below
depends on a float boundary.
-/

set_option autoImplicit false

/-- Lowercase every character, mirroring Python str.lower on the ASCII data
this system manipulates. -/
def lowerStr (s : String) : String := String.mk (s.data.map Char.toLower)

/-- Drop leading and trailing whitespace from a character list, mirroring
Python str.strip. -/
def stripChars (l : List Char) : List Char :=
  ((l.dropWhile Char.isWhitespace).reverse.dropWhile Char.isWhitespace).reverse

/-- Python membership test of a character in a string. -/
def hasChar : List Char → Char → Bool
  | [], _ => false
  | c :: rest, d => if c = d then true else hasChar rest d

/-- Python \w on ASCII input: letters, digits and underscore. -/
def isWordChar (c : Char) : Bool := c.isAlphanum || c = '_'

/-- Drop every character outside word characters, whitespace and hyphens:
the re.sub of [^\w\s-] with the empty string inside utils.slugify. -/
def slugFilter (l : List Char) : List Char :=
  l.filter (fun c => isWordChar c || c.isWhitespace || c = '-')

/-- Collapse every run of whitespace, underscores and hyphens to a single
hyphen: the re.sub of [\s_-]+ with a hyphen inside utils.slugify.  The flag
records whether the previous character belonged to such a run. -/
def collapseSeps : Bool → List Char → List Char
  | _, [] => []
  | prevSep, c :: rest =>
    if c.isWhitespace || c = '_' || c = '-' then
      if prevSep then collapseSeps true rest else '-' :: collapseSeps true rest
    else c :: collapseSeps false rest

/-- Drop leading and trailing hyphens: the re.sub of ^-+|-+$ inside
utils.slugify. -/
def trimHyphens (l : List Char) : List Char :=
  ((l.dropWhile (fun c => c = '-')).reverse.dropWhile (fun c => c = '-')).reverse

/-- Port of utils.slugify: lowercase, strip, drop the characters outside
word/space/hyphen, collapse separator runs to one hyphen and trim boundary
hyphens. -/
def slugify (text : String) : String :=
  String.mk (trimHyphens (collapseSeps false (slugFilter (stripChars (text.data.map Char.toLower)))))

/-- Python str.isdigit on ASCII input: non-empty and all digits. -/
def isDigitStr (l : List Char) : Bool := !l.isEmpty && l.all Char.isDigit

/-- Decimal value of a digit string. -/
def digitsToNat (l : List Char) : Nat := l.foldl (fun n c => 10 * n + (c.toNat - 48)) 0

/-- Split a character list into its longest digit prefix and the rest. -/
def spanDigits : List Char → List Char × List Char
  | [] => ([], [])
  | c :: rest =>
    if c.isDigit then
      let (a, b) := spanDigits rest
      (c :: a, b)
    else ([], c :: rest)

/-- One random.randint(1, sides) call driven by the head of the entropy
stream; every stream value selects a face in [1, sides] and an exhausted
stream yields 1.  Python raises on sides = 0; the model clamps instead. -/
def randInt (sides : Nat) (g : List Nat) : Nat × List Nat :=
  match g with
  | [] => (1, [])
  | x :: rest => (1 + x % max sides 1, rest)

/-- Sum of count independent randint(1, sides) draws. -/
def rollN (count sides : Nat) (g : List Nat) : Nat × List Nat :=
  match count with
  | 0 => (0, g)
  | n + 1 =>
    let (v, g1) := randInt sides g
    let (rest, g2) := rollN n sides g1
    (v + rest, g2)

/-- Unanchored match of the regular expression (\d+)?d(\d+)([+-]\d+)? at the
start of a character list, returning count, sides, modifier and the
unconsumed rest.  A sign without digits leaves the sign unconsumed, exactly
as the optional third group of the regex does. -/
def matchDicePattern (l : List Char) : Option (Nat × Nat × Int × List Char) :=
  let (d1, r1) := spanDigits l
  match r1 with
  | 'd' :: r2 =>
    let (d2, r3) := spanDigits r2
    if d2.isEmpty then none
    else
      let count := if d1.isEmpty then 1 else digitsToNat d1
      let sides := digitsToNat d2
      match r3 with
      | '+' :: r4 =>
        let (d3, r5) := spanDigits r4
        if d3.isEmpty then some (count, sides, 0, r3)
        else some (count, sides, (digitsToNat d3 : Int), r5)
      | '-' :: r4 =>
        let (d3, r5) := spanDigits r4
        if d3.isEmpty then some (count, sides, 0, r3)
        else some (count, sides, -(digitsToNat d3 : Int), r5)
      | _ => some (count, sides, 0, r3)
  | _ => none

/-- Anchored dice-first parse of roll_dice: the whole normalized formula must
match (\d+)?d(\d+)([+-]\d+)?$. -/
def parseDiceFirst (l : List Char) : Option (Nat × Nat × Int) :=
  match matchDicePattern l with
  | some (c, s, m, []) => some (c, s, m)
  | _ => none

/-- Anchored trailing parse of (\d+)?d(\d+)$ for the modifier-first form. -/
def parseTrailingDice (l : List Char) : Option (Nat × Nat) :=
  let (d2, r3) := spanDigits l
  match r3 with
  | 'd' :: r4 =>
    let (d3, r5) := spanDigits r4
    if d3.isEmpty then none
    else if r5.isEmpty then some ((if d2.isEmpty then 1 else digitsToNat d2), digitsToNat d3)
    else none
  | _ => none

/-- Anchored modifier-first parse of roll_dice: (\d+)([+-])(\d+)?d(\d+)$,
returning base, whether the operator is plus, count and sides. -/
def parseModFirst (l : List Char) : Option (Nat × Bool × Nat × Nat) :=
  let (d1, r1) := spanDigits l
  if d1.isEmpty then none
  else
    match r1 with
    | '+' :: r2 => (parseTrailingDice r2).map (fun p => (digitsToNat d1, true, p.1, p.2))
    | '-' :: r2 => (parseTrailingDice r2).map (fun p => (digitsToNat d1, false, p.1, p.2))
    | _ => none

/-- The formula.lower().strip() normalization applied by roll_dice and the
narrative descriptors. -/
def normalizeFormula (s : String) : List Char := stripChars (s.data.map Char.toLower)

/-- Port of utils.roll_dice driven by an explicit entropy stream: a bare
integer, else the dice-first form, else the modifier-first form, else the
lenient fallback value 1. -/
def rollDice (formula : String) (g : List Nat) : Int × List Nat :=
  let f := normalizeFormula formula
  if isDigitStr f then ((digitsToNat f : Int), g)
  else
    match parseDiceFirst f with
    | some (count, sides, modifier) =>
      let (total, g1) := rollN count sides g
      ((total : Int) + modifier, g1)
    | none =>
      match parseModFirst f with
      | some (base, isPlus, count, sides) =>
        let (total, g1) := rollN count sides g
        (if isPlus then (base : Int) + (total : Int) else (base : Int) - (total : Int), g1)
      | none => (1, g)

/-- Maximum attainable value of roll_dice on a formula: the same parsing with
every die contribution maximised, which for the subtracted dice of the
modifier-first minus form means every die at its minimum face. -/
def rollDiceMax (formula : String) : Int :=
  let f := normalizeFormula formula
  if isDigitStr f then (digitsToNat f : Int)
  else
    match parseDiceFirst f with
    | some (count, sides, modifier) => ((count * sides : Nat) : Int) + modifier
    | none =>
      match parseModFirst f with
      | some (base, isPlus, count, sides) =>
        if isPlus then (base : Int) + ((count * sides : Nat) : Int)
        else (base : Int) - ((count : Nat) : Int)
      | none => 1

/-- Port of utils.threat_level_to_hit_chance. -/
def threatLevelToHitChance (threatLevel : String) : Int :=
  if threatLevel = "none" then 10
  else if threatLevel = "negligible" then 25
  else if threatLevel = "low" then 35
  else if threatLevel = "moderate" then 50
  else if threatLevel = "high" then 65
  else if threatLevel = "deadly" then 80
  else if threatLevel = "certain_death" then 95
  else 50

/-- Port of utils.health_description; the float ratio thresholds are written
as exact integer cross multiplications against max_health. -/
def healthDescription (health maxHealth : Int) : String :=
  if health ≤ 0 then "dead"
  else if health ≥ maxHealth then "in perfect health"
  else if 4 * health ≥ 3 * maxHealth then "slightly wounded"
  else if 2 * health ≥ maxHealth then "moderately wounded"
  else if 4 * health ≥ maxHealth then "severely wounded"
  else if 10 * health ≥ maxHealth then "badly wounded"
  else "critically wounded"

/-- The max_damage computation inside utils.damage_descriptor: when the
formula contains a d, an unanchored prefix match of the dice pattern (with
fallback 6); else a bare integer; else the fallback 6. -/
def descriptorMaxDamage (weaponFormula : String) : Int :=
  let f := normalizeFormula weaponFormula
  if hasChar f 'd' then
    match matchDicePattern f with
    | some (count, sides, modifier, _) => ((count * sides : Nat) : Int) + modifier
    | none => 6
  else if isDigitStr f then (digitsToNat f : Int)
  else 6

/-- Port of utils.damage_descriptor; a non-positive ceiling yields ratio 0
exactly as in the source. -/
def damageDescriptor (damage : Int) (weaponFormula : String) : String :=
  let maxDamage := descriptorMaxDamage weaponFormula
  if maxDamage ≤ 0 then "barely grazes"
  else if 100 * damage ≤ 33 * maxDamage then "barely grazes"
  else if 100 * damage ≤ 55 * maxDamage then "strikes lightly"
  else if 100 * damage ≤ 75 * maxDamage then "lands"
  else if 100 * damage ≤ 95 * maxDamage then "strikes solidly"
  else "crashes down with devastating force"

/-- The max_healing computation inside utils.healing_descriptor, a verbatim
twin of the damage version in the source. -/
def descriptorMaxHealing (healFormula : String) : Int :=
  let f := normalizeFormula healFormula
  if hasChar f 'd' then
    match matchDicePattern f with
    | some (count, sides, modifier, _) => ((count * sides : Nat) : Int) + modifier
    | none => 6
  else if isDigitStr f then (digitsToNat f : Int)
  else 6

/-- Port of utils.healing_descriptor. -/
def healingDescriptor (healAmount : Int) (healFormula : String) : String :=
  let maxHealing := descriptorMaxHealing healFormula
  if maxHealing ≤ 0 then "minor recovery"
  else if 100 * healAmount ≤ 33 * maxHealing then "minor recovery"
  else if 100 * healAmount ≤ 55 * maxHealing then "light healing"
  else if 100 * healAmount ≤ 75 * maxHealing then "moderate recovery"
  else if 100 * healAmount ≤ 95 * maxHealing then "strong healing"
  else "major restoration"

/-- Port of utils.err_not_found. -/
def errNotFound (entity name hint : String) : String :=
  let msg := entity ++ " '" ++ name ++ "' not found."
  if hint = "" then msg else msg ++ " " ++ hint

/-- Port of utils.err_already_exists. -/
def errAlreadyExists (entity name hint : String) : String :=
  let msg := entity ++ " '" ++ name ++ "' already exists."
  if hint = "" then msg else msg ++ " " ++ hint

/-- Port of utils.err_missing. -/
def errMissing (owner item available : String) : String :=
  let msg := owner ++ " doesn't have '" ++ item ++ "'."
  if available = "" then msg else msg ++ " Available: " ++ available

/-- Port of utils.err_invalid. -/
def errInvalid (description hint : String) : String :=
  if hint = "" then description else description ++ " " ++ hint

/-- Python truthiness of an optional string argument: present and non-empty. -/
def truthyOpt (o : Option String) : Option String :=
  match o with
  | some s => if s = "" then none else some s
  | none => none

/-- Python truthiness of an optional string value as a Bool. -/
def truthyStr (o : Option String) : Bool :=
  match o with
  | some s => if s = "" then false else true
  | none => false

/-- Port of utils.format_list_from_dict. -/
def formatListFromDict {α : Type} (d : List (String × α)) (emptyMessage : String) : String :=
  if d.isEmpty then emptyMessage
  else String.intercalate ", " (d.map (fun p => p.1))

/-- An inventory item as consulted by the combat engine; only the weapon flag
and the damage formula are read by resolve_weapon. -/
structure Item where
  weapon : Bool
  damage : Option String
deriving DecidableEq, Repr

/-- The inventory dictionary of a character record. -/
structure Inventory where
  money : Int
  items : List (String × Item)
deriving DecidableEq, Repr

/-- A character (NPC) record as stored in its JSON file; optional fields model
dictionary keys that may be absent, with the defaults the source supplies at
each read site. -/
structure Npc where
  name : String
  keywords : List String
  health : Option Int
  max_health : Option Int
  hit_chance : Option Int
  inventory : Option Inventory
deriving DecidableEq, Repr

/-- A bestiary creature template. -/
structure BestiaryEntry where
  hp : String
  threat_level : Option String
  weapons : List (String × String)
deriving DecidableEq, Repr

/-- One entry of the participants mapping of the active combat record. -/
structure Participant where
  health : Int
  max_health : Int
  hit_chance : Option Int
  team : Option String
  bestiary_template : Option String
deriving DecidableEq, Repr

/-- The participants dictionary of the active combat record, in insertion
order. -/
abbrev CombatState := List (String × Participant)

/-- The campaign record; playerName models campaign.player.name with the
empty string standing for an absent key, exactly the default chain the
source applies. -/
structure CampaignData where
  playerName : String
deriving DecidableEq, Repr

/-- The per-campaign stores the combat engine reads and writes: the campaign
record, the npc files keyed by slug, the npcs.json keyword index in insertion
order, the bestiary keyed by lowercased name, and the combat record whose
absence means no active combat. -/
structure World where
  campaign : Option CampaignData
  npcs : List (String × Npc)
  npcIndex : List (String × List String)
  bestiary : List (String × BestiaryEntry)
  combat : Option CombatState
deriving DecidableEq, Repr

/-- Lookup of a JSON dictionary key: the first entry with this key. -/
def dictGet? {α : Type} : List (String × α) → String → Option α
  | [], _ => none
  | (k, v) :: rest, key => if k = key then some v else dictGet? rest key

/-- Assignment to a JSON dictionary key: replace the first occurrence in
place, appending when the key is new, as Python dict assignment does. -/
def dictInsert {α : Type} : List (String × α) → String → α → List (String × α)
  | [], key, v => [(key, v)]
  | (k, w) :: rest, key, v =>
    if k = key then (key, v) :: rest else (k, w) :: dictInsert rest key v

/-- Deletion of a JSON dictionary key. -/
def dictErase {α : Type} : List (String × α) → String → List (String × α)
  | [], _ => []
  | (k, v) :: rest, key =>
    if k = key then dictErase rest key else (k, v) :: dictErase rest key

/-- Case-insensitive key search, port of combat.find_item_case_insensitive
(only the value is used by callers). -/
def findItemCaseInsensitive {α : Type} : List (String × α) → String → Option α
  | [], _ => none
  | (k, v) :: rest, key =>
    if lowerStr k = lowerStr key then some v else findItemCaseInsensitive rest key

/-- The keyword scan of repos.resolve_npc_by_keyword over the npc index, in
insertion order; an index entry whose npc file is missing is skipped. -/
def scanNpcIndex (w : World) (nameLower : String) : List (String × List String) → Option (String × Npc)
  | [] => none
  | (slug, kws) :: rest =>
    if (kws.map lowerStr).contains nameLower then
      match dictGet? w.npcs slug with
      | some d => some (slug, d)
      | none => scanNpcIndex w nameLower rest
    else scanNpcIndex w nameLower rest

/-- Port of repos.resolve_npc_by_keyword: direct slug match first, then the
keyword scan of the index. -/
def resolveNpcByKeyword (w : World) (name : String) : Option (String × Npc) :=
  match dictGet? w.npcs (slugify name) with
  | some d => some (slugify name, d)
  | none => scanNpcIndex w (lowerStr name) w.npcIndex

/-- Port of combat.resolve_participant_name; success carries the stored name
field of the resolved npc record. -/
def resolveParticipantName (w : World) (name : String) : Option String :=
  (resolveNpcByKeyword w name).map (fun p => p.2.name)

/-- The attack handler's scan of active participants: the first stored key
whose slug equals the slug of the request. -/
def findCombatParticipant : CombatState → String → Option String
  | [], _ => none
  | (k, _) :: rest, name =>
    if slugify k = slugify name then some k else findCombatParticipant rest name

/-- Resolution of an attacker or target inside handle_attack: active combat
first, then npc resolution; a bare bestiary template name fails. -/
def resolveAttackName (w : World) (st : CombatState) (name : String) : Option String :=
  match findCombatParticipant st name with
  | some r => some r
  | none => resolveParticipantName w name

/-- Method 1 of combat.is_participant_player: a truthy campaign player name
matching case-insensitively. -/
def playerNameMatches (w : World) (name : String) : Bool :=
  match w.campaign with
  | some c =>
    if c.playerName = "" then false
    else if lowerStr name = lowerStr c.playerName then true else false
  | none => false

/-- Method 2 of combat.is_participant_player: a player keyword on the npc
file. -/
def playerKeywordMatches (w : World) (name : String) : Bool :=
  match dictGet? w.npcs (slugify name) with
  | some npc => (npc.keywords.map lowerStr).contains "player"
  | none => false

/-- Port of combat.is_participant_player: either method suffices. -/
def isParticipantPlayer (w : World) (name : String) : Bool :=
  playerNameMatches w name || playerKeywordMatches w name

/-- Port of combat.sync_npc_health: write combat health back onto the npc
file when one exists. -/
def syncNpcHealth (npcs : List (String × Npc)) (participantName : String) (health maxHealth : Int) :
    List (String × Npc) :=
  match dictGet? npcs (slugify participantName) with
  | some npc =>
    dictInsert npcs (slugify participantName) { npc with health := some health, max_health := some maxHealth }
  | none => npcs

/-- Port of combat.sync_all_participants_health. -/
def syncAllParticipantsHealth (npcs : List (String × Npc)) (st : CombatState) : List (String × Npc) :=
  st.foldl (fun acc p => syncNpcHealth acc p.1 p.2.health p.2.max_health) npcs

/-- Port of combat.end_combat_for_player: sync every remaining participant
and delete the combat record. -/
def endCombatForPlayer (w : World) (st : CombatState) : World × String :=
  ({ w with npcs := syncAllParticipantsHealth w.npcs st, combat := none }, "\nCombat has ended!")

/-- Port of combat.get_participant_stats: an npc record (by slug or keyword)
first, else a fresh roll from the bestiary template, consuming entropy only
on the template path. -/
def getParticipantStats (w : World) (name : String) (g : List Nat) : Option Participant × List Nat :=
  match resolveNpcByKeyword w name with
  | some (_, npc) =>
    (some { health := npc.health.getD 20, max_health := npc.max_health.getD 20,
            hit_chance := some (npc.hit_chance.getD 50), team := none, bestiary_template := none }, g)
  | none =>
    match dictGet? w.bestiary (lowerStr name) with
    | some entry =>
      let (maxHealth, g1) := rollDice entry.hp g
      (some { health := maxHealth, max_health := maxHealth,
              hit_chance := some (threatLevelToHitChance (entry.threat_level.getD "moderate")),
              team := none, bestiary_template := none }, g1)
    | none => (none, g)

/-- Port of combat.handle_participant_death: zero the npc file's health and
delete the file unless the participant is the player. -/
def handleParticipantDeath (w : World) (participantName : String) : World :=
  match dictGet? w.npcs (slugify participantName) with
  | none => w
  | some npc =>
    let w1 := { w with npcs := dictInsert w.npcs (slugify participantName) { npc with health := some 0 } }
    if isParticipantPlayer w1 participantName then w1
    else { w1 with npcs := dictErase w1.npcs (slugify participantName) }

/-- Number of distinct team values among the participants, counting an absent
team key as the distinct value None, as the Python set of .get results does. -/
def distinctTeamCount (st : CombatState) : Nat :=
  ((st.map (fun p => p.2.team)).dedup).length

/-- Port of combat.check_and_end_combat: at most one team left ends combat
with a full health sync and deletion; otherwise the state is saved. -/
def checkAndEndCombat (w : World) (st : CombatState) : World × Bool × String :=
  if distinctTeamCount st ≤ 1 then
    ({ w with npcs := syncAllParticipantsHealth w.npcs st, combat := none }, true, "\nCombat has ended!")
  else
    ({ w with combat := some st }, false, "")

/-- The fixed unarmed synonym list of resolve_weapon. -/
def unarmedKeywords : List String := ["fists", "fist", "punch", "kick", "unarmed", "bare hands"]

/-- Branch 1 of resolve_weapon: the npc inventory, with the improvised and
unarmed fallbacks. -/
def resolveWeaponInventory (attackerName weapon : String) (items : List (String × Item)) :
    Option String × Bool × Option String :=
  match findItemCaseInsensitive items weapon with
  | some item =>
    if item.weapon && truthyStr item.damage then (item.damage, false, none)
    else (some "1d4", true, none)
  | none =>
    if unarmedKeywords.contains (lowerStr weapon) then (some "1d4", false, none)
    else (none, false, some (errMissing attackerName weapon (formatListFromDict items "none (try 'fists' for unarmed)")))

/-- Branch 2 of resolve_weapon: the weapons dictionary of a bestiary entry,
treating an empty formula as missing exactly as Python truthiness does. -/
def resolveWeaponBestiary (attackerName weapon : String) (entry : BestiaryEntry) :
    Option String × Bool × Option String :=
  match findItemCaseInsensitive entry.weapons weapon with
  | some damage =>
    if damage = "" then (none, false, some (errMissing attackerName weapon (formatListFromDict entry.weapons "none")))
    else (some damage, false, none)
  | none => (none, false, some (errMissing attackerName weapon (formatListFromDict entry.weapons "none")))

/-- Branch 3 of resolve_weapon: the unknown-participant failure. -/
def invalidParticipantError (attackerName : String) : Option String × Bool × Option String :=
  (none, false, some (errInvalid ("'" ++ attackerName ++ "' is not a valid participant.")
    "Use create_npc or create_bestiary_entry first."))

/-- The bestiary lookup name of resolve_weapon: a spawned participant's
stored template, else the attacker name itself. -/
def weaponBestiaryLookup (attackerData : Option Participant) (attackerName : String) : String :=
  match attackerData with
  | some d => d.bestiary_template.getD attackerName
  | none => attackerName

/-- The elif/else chain after branch 1 of resolve_weapon. -/
def resolveWeaponFallback (attackerName weapon : String) (bestiaryEntry : Option BestiaryEntry) :
    Option String × Bool × Option String :=
  match bestiaryEntry with
  | some entry => resolveWeaponBestiary attackerName weapon entry
  | none => invalidParticipantError attackerName

/-- Port of combat.resolve_weapon: the inventory branch runs whenever the npc
record exists and carries an inventory key; otherwise the bestiary branch,
otherwise the failure.  attackerData is the attacker's active combat entry
(None standing for the empty dictionary passed before joining). -/
def resolveWeapon (w : World) (attackerName : String) (attackerData : Option Participant) (weapon : String) :
    Option String × Bool × Option String :=
  let bestiaryEntry := dictGet? w.bestiary (lowerStr (weaponBestiaryLookup attackerData attackerName))
  match dictGet? w.npcs (slugify attackerName) with
  | some npc =>
    match npc.inventory with
    | some inv => resolveWeaponInventory attackerName weapon inv.items
    | none => resolveWeaponFallback attackerName weapon bestiaryEntry
  | none => resolveWeaponFallback attackerName weapon bestiaryEntry

/-- Outcome of the spawn_enemy tool: the resulting stores, the error text of
an early return, the success text, and the remaining entropy. -/
structure SpawnOutcome where
  world : World
  error : Option String
  text : String
  g : List Nat
deriving DecidableEq, Repr

/-- Port of combat.handle_spawn_enemy. -/
def handleSpawnEnemy (w : World) (name bestiaryTemplate : String) (teamArg : Option String)
    (g : List Nat) : SpawnOutcome :=
  let team := teamArg.getD name
  match dictGet? w.bestiary (lowerStr bestiaryTemplate) with
  | none =>
    ⟨w, some (errNotFound "Bestiary template" bestiaryTemplate "Use create_bestiary_entry first."), "", g⟩
  | some _ =>
    let st0 := w.combat.getD []
    if (dictGet? st0 name).isSome then
      ⟨w, some (errAlreadyExists "Combatant" name "Use a different name."), "", g⟩
    else
      match getParticipantStats w bestiaryTemplate g with
      | (none, g1) =>
        ⟨w, some (errNotFound "Bestiary template stats" bestiaryTemplate "Template may be corrupted."), "", g1⟩
      | (some stats, g1) =>
        let stats1 := { stats with team := some team, bestiary_template := some bestiaryTemplate }
        let st1 := dictInsert st0 name stats1
        ⟨{ w with combat := some st1 }, none,
          name ++ " enters the fray! (Template: " ++ bestiaryTemplate ++ ", Team: " ++ team ++ ")", g1⟩

/-- Outcome of the attack tool: the resulting stores, the error text of an
early return, the narration lines, the final value of the in-memory
participants dictionary at the point of return (meaningful on non-error
runs; it is the state that was either saved or, when combat ended, synced
and deleted), and the remaining entropy. -/
structure AttackOutcome where
  world : World
  error : Option String
  lines : List String
  finalState : CombatState
  g : List Nat
deriving DecidableEq, Repr

/-- Placeholder participant for lookups the source performs with a plain
dictionary index after guaranteeing presence. -/
def defaultParticipant : Participant :=
  { health := 0, max_health := 0, hit_chance := none, team := none, bestiary_template := none }

/-- One iteration of the participant-initialization loop of handle_attack.
The team of a newly joining participant is the team argument (if truthy) for
the iteration whose original request string equals the attacker argument,
else its own resolved name. -/
def materializeOne (w : World) (st : CombatState) (origName resolvedName attackerOrig : String)
    (teamArg : Option String) (g : List Nat) : Except String CombatState × List Nat :=
  if (dictGet? st resolvedName).isSome then (Except.ok st, g)
  else
    match getParticipantStats w resolvedName g with
    | (none, g1) => (Except.error (errNotFound "Participant" resolvedName "NPC may have been deleted."), g1)
    | (some stats, g1) =>
      let team :=
        if origName = attackerOrig then (truthyOpt teamArg).getD resolvedName
        else resolvedName
      (Except.ok (dictInsert st resolvedName { stats with team := some team }), g1)

/-- The participant-initialization loop of handle_attack: attacker first,
then target. -/
def materializeParticipants (w : World) (st : CombatState) (attacker atkRes target tgtRes : String)
    (teamArg : Option String) (g : List Nat) : Except String CombatState × List Nat :=
  match materializeOne w st attacker atkRes attacker teamArg g with
  | (Except.error e, g1) => (Except.error e, g1)
  | (Except.ok st1, g1) => materializeOne w st1 target tgtRes attacker teamArg g1

/-- The unconditional team overwrite of handle_attack when a truthy team
argument is supplied. -/
def applyTeamOverwrite (st : CombatState) (atkRes : String) (teamArg : Option String) : CombatState :=
  match truthyOpt teamArg with
  | none => st
  | some t =>
    match dictGet? st atkRes with
    | some pa => dictInsert st atkRes { pa with team := some t }
    | none => st

/-- Port of combat.check_team_betrayal: equal teams move the attacker onto a
solo team named after itself.  The source indexes both participants
directly; the model reads them with bind, the absent case being unreachable
from the handler. -/
def checkTeamBetrayal (st : CombatState) (atkRes tgtRes : String) : CombatState × Bool :=
  let attackerTeam := (dictGet? st atkRes).bind Participant.team
  let targetTeam := (dictGet? st tgtRes).bind Participant.team
  if attackerTeam = targetTeam then
    (match dictGet? st atkRes with
     | some pa => dictInsert st atkRes { pa with team := some atkRes }
     | none => st, true)
  else (st, false)

/-- The self-attack / betrayal narration step at the top of the hit branch
of handle_attack. -/
def selfOrBetrayal (st : CombatState) (atkRes tgtRes : String) : CombatState × List String :=
  if atkRes = tgtRes then (st, [atkRes ++ " was their own worst enemy all along."])
  else
    let (st1, betrayed) := checkTeamBetrayal st atkRes tgtRes
    (st1, if betrayed then [atkRes ++ " has betrayed their team!"] else [])

/-- The fixed narrative hit-location list of handle_attack. -/
def hitLocations : List String := ["head", "chest", "arm", "leg"]

/-- random.choice over a fixed string list, driven by the entropy stream. -/
def randChoice (l : List String) (g : List Nat) : String × List Nat :=
  match g with
  | [] => (l.headD "", [])
  | x :: rest => (((l.get? (x % l.length)).getD ""), rest)

/-- The body of the hit branch of handle_attack after the weapon formula has
been re-resolved: damage roll, hit location, health mutation and floor at 0,
npc sync, narration, and the death / end-of-combat handling. -/
def attackHitCore (w : World) (st3 : CombatState) (lines0 : List String)
    (atkRes tgtRes weapon : String) (damageFormula : Option String) (isImprovised : Bool)
    (g : List Nat) : AttackOutcome :=
  let (damage, g1) := rollDice (damageFormula.getD "1") g
  let (hitLocation, g2) := randChoice hitLocations g1
  let tgtData := (dictGet? st3 tgtRes).getD defaultParticipant
  let targetHealth := max 0 (tgtData.health - damage)
  let st4 := dictInsert st3 tgtRes { tgtData with health := targetHealth }
  let w1 := { w with npcs := syncNpcHealth w.npcs tgtRes targetHealth tgtData.max_health }
  let weaponDesc := if isImprovised then "improvised weapon (" ++ weapon ++ ")" else weapon
  let lines1 := lines0 ++
    [atkRes ++ " attacks " ++ tgtRes ++ " with " ++ weaponDesc ++ ".",
     "The attack " ++ damageDescriptor damage (damageFormula.getD "1") ++ " into the " ++ hitLocation ++ "."]
  if targetHealth ≤ 0 then
    let lines2 := lines1 ++ [tgtRes ++ " has been slain!"]
    let w2 := handleParticipantDeath w1 tgtRes
    let st5 := dictErase st4 tgtRes
    if isParticipantPlayer w2 tgtRes then
      let (w3, endMsg) := endCombatForPlayer w2 st5
      ⟨w3, none, lines2 ++ [endMsg], st5, g2⟩
    else
      let (w3, ended, endMsg) := checkAndEndCombat w2 st5
      ⟨w3, none, if ended then lines2 ++ [endMsg] else lines2, st5, g2⟩
  else
    let lines2 := lines1 ++ [tgtRes ++ " is " ++ healthDescription targetHealth tgtData.max_health ++ "."]
    ⟨{ w1 with combat := some st4 }, none, lines2, st4, g2⟩

/-- The hit branch of handle_attack.  The weapon re-resolution reads only the
attacker's stored template, which the betrayal step never touches, so the
pre-betrayal entry is passed. -/
def attackHit (w : World) (st2 : CombatState) (atkRes tgtRes weapon : String) (g : List Nat) :
    AttackOutcome :=
  let (st3, lines0) := selfOrBetrayal st2 atkRes tgtRes
  let (formulaOpt, isImprovised, _) := resolveWeapon w atkRes (dictGet? st2 atkRes) weapon
  attackHitCore w st3 lines0 atkRes tgtRes weapon formulaOpt isImprovised g

/-- The miss branch of handle_attack: the betrayal check still runs (with no
self-attack guard), then the dodge narration and an unconditional save. -/
def attackMiss (w : World) (st2 : CombatState) (atkRes tgtRes weapon : String) (g : List Nat) :
    AttackOutcome :=
  let (st3, betrayed) := checkTeamBetrayal st2 atkRes tgtRes
  let lines0 := if betrayed then [atkRes ++ " has betrayed their team!"] else []
  let lines1 := lines0 ++
    [atkRes ++ " attacks " ++ tgtRes ++ " with " ++ weapon ++ ".", tgtRes ++ " dodges the attack."]
  let lines2 :=
    match dictGet? st3 tgtRes with
    | some td => lines1 ++ [tgtRes ++ " is " ++ healthDescription td.health td.max_health ++ "."]
    | none => lines1
  ⟨{ w with combat := some st3 }, none, lines2, st3, g⟩

/-- Port of combat.handle_attack.  Every early error return leaves every
store untouched; the weapon is validated against the attacker's pre-join
data before the initialization loop runs. -/
def handleAttack (w : World) (attacker target : String) (weaponArg teamArg : Option String)
    (g : List Nat) : AttackOutcome :=
  let weapon := (truthyOpt weaponArg).getD "unarmed"
  let st0 := w.combat.getD []
  match resolveAttackName w st0 attacker with
  | none =>
    ⟨w, some (errNotFound "Participant" attacker "Use NPC name/keyword or spawn_enemy first."), [], [], g⟩
  | some atkRes =>
    match resolveAttackName w st0 target with
    | none =>
      ⟨w, some (errNotFound "Participant" target "Use NPC name/keyword or spawn_enemy first."), [], [], g⟩
    | some tgtRes =>
      match (resolveWeapon w atkRes (dictGet? st0 atkRes) weapon).2.2 with
      | some weaponError => ⟨w, some weaponError, [], [], g⟩
      | none =>
        match materializeParticipants w st0 attacker atkRes target tgtRes teamArg g with
        | (Except.error e, g1) => ⟨w, some e, [], [], g1⟩
        | (Except.ok st1, g1) =>
          let st2 := applyTeamOverwrite st1 atkRes teamArg
          let hitChance := ((dictGet? st2 atkRes).getD defaultParticipant).hit_chance.getD 50
          let (hitRoll, g2) := rollDice "1d100" g1
          if hitRoll ≤ hitChance then attackHit w st2 atkRes tgtRes weapon g2
          else attackMiss w st2 atkRes tgtRes weapon g2

/-- Outcome of the remove_from_combat tool. -/
structure RemoveOutcome where
  world : World
  text : String
deriving DecidableEq, Repr

/-- Port of combat.handle_remove_from_combat.  The participant lookup is an
exact match on the stored key; the reason defaults to death. -/
def handleRemoveFromCombat (w : World) (name : String) (reasonArg : Option String) : RemoveOutcome :=
  let reason := reasonArg.getD "death"
  match w.combat with
  | none => ⟨w, "There's no active combat."⟩
  | some st =>
    if (dictGet? st name).isNone then ⟨w, name ++ " is not in combat."⟩
    else
      let w1 := if reason = "death" then handleParticipantDeath w name else w
      let playerLeaving := isParticipantPlayer w1 name
      let st1 := dictErase st name
      let resultText :=
        if reason = "death" then name ++ " has been slain!"
        else if reason = "flee" then name ++ " flees from combat!"
        else if reason = "surrender" then name ++ " surrenders!"
        else name ++ " has left combat."
      if playerLeaving then
        let (w2, endMsg) := endCombatForPlayer w1 st1
        ⟨w2, resultText ++ endMsg⟩
      else
        let (w2, ended, endMsg) := checkAndEndCombat w1 st1
        ⟨w2, if ended then resultText ++ endMsg else resultText⟩

/-- Bestiary wolf template of the C1 scenario: hp 2d6+2, low threat. -/
def c1Entry : BestiaryEntry := { hp := "2d6+2", threat_level := some "low", weapons := [] }

/-- World with an empty campaign holding only the wolf template and no
active combat. -/
def c1World : World :=
  { campaign := none, npcs := [], npcIndex := [], bestiary := [("wolf", c1Entry)], combat := none }

/-- Two-participant active combat on distinct teams used to witness the
removal end-condition. -/
def c1wState : CombatState :=
  [("a", { health := 5, max_health := 5, hit_chance := some 50, team := some "red", bestiary_template := none }),
   ("b", { health := 6, max_health := 6, hit_chance := some 50, team := some "blue", bestiary_template := none })]

/-- World carrying c1wState and nothing else. -/
def c1wWorld : World :=
  { campaign := none, npcs := [], npcIndex := [], bestiary := [], combat := some c1wState }

/-- Npc behind the lone self-attacking combatant of the C1 miss scenario. -/
def c1mNpc : Npc :=
  { name := "solo", keywords := [], health := some 10, max_health := some 10,
    hit_chance := some 50, inventory := some { money := 0, items := [] } }

/-- Single participant on its own solo team. -/
def c1mState : CombatState :=
  [("solo", { health := 10, max_health := 10, hit_chance := some 50, team := some "solo", bestiary_template := none })]

/-- World of the C1 one-team attack-miss scenario. -/
def c1mWorld : World :=
  { campaign := none, npcs := [("solo", c1mNpc)], npcIndex := [], bestiary := [], combat := some c1mState }

/-- Three-way combat used to witness the attack-death end condition and the
survival persistence of the hit branch. -/
def c1dState : CombatState :=
  [("axe", { health := 10, max_health := 10, hit_chance := some 50, team := some "red", bestiary_template := none }),
   ("bat", { health := 1, max_health := 8, hit_chance := some 50, team := some "blue", bestiary_template := none }),
   ("cat", { health := 9, max_health := 9, hit_chance := some 50, team := some "blue", bestiary_template := none })]

/-- World carrying c1dState with no character records. -/
def c1dWorld : World :=
  { campaign := none, npcs := [], npcIndex := [], bestiary := [], combat := some c1dState }

/-- Attacker npc with full health and an empty inventory. -/
def c4Hero : Npc :=
  { name := "hero", keywords := [], health := some 10, max_health := some 10,
    hit_chance := some 50, inventory := some { money := 0, items := [] } }

/-- Character record already at zero health, as handle_participant_death
leaves a dead player's file. -/
def c4Ghost : Npc :=
  { name := "ghost", keywords := [], health := some 0, max_health := some 10,
    hit_chance := some 50, inventory := none }

/-- World in which a zero-health record can join combat. -/
def c4World : World :=
  { campaign := none, npcs := [("hero", c4Hero), ("ghost", c4Ghost)], npcIndex := [],
    bestiary := [], combat := none }

/-- Low-health target entry used to witness death removal. -/
def c4wTarget : Participant :=
  { health := 1, max_health := 5, hit_chance := some 50, team := some "blue", bestiary_template := none }

/-- Healthy target entry used to witness the survivor branch. -/
def c4wSurvivor : Participant :=
  { health := 9, max_health := 9, hit_chance := some 50, team := some "blue", bestiary_template := none }

/-- Three-way combat state used to witness the death branch of the hit core
with combat continuing. -/
def c4wState : CombatState :=
  [("hero", { health := 10, max_health := 10, hit_chance := some 50, team := some "red", bestiary_template := none }),
   ("orc", c4wTarget),
   ("troll", c4wSurvivor)]

/-- World carrying c4wState with no character records. -/
def c4wWorld : World :=
  { campaign := none, npcs := [], npcIndex := [], bestiary := [], combat := some c4wState }

/-- Npc behind the self-attacking combatant of the C5 scenario. -/
def c5Npc : Npc :=
  { name := "hero", keywords := [], health := some 10, max_health := some 10,
    hit_chance := some 50, inventory := some { money := 0, items := [] } }

/-- Single participant fighting on a named alliance team. -/
def c5State : CombatState :=
  [("hero", { health := 10, max_health := 10, hit_chance := some 50, team := some "alliance", bestiary_template := none })]

/-- World of the C5 self-attack scenario. -/
def c5World : World :=
  { campaign := none, npcs := [("hero", c5Npc)], npcIndex := [], bestiary := [], combat := some c5State }

/-- Two teammates used to witness the betrayal transition. -/
def c6State : CombatState :=
  [("hero", { health := 10, max_health := 10, hit_chance := some 50, team := some "T", bestiary_template := none }),
   ("rival", { health := 8, max_health := 8, hit_chance := some 50, team := some "T", bestiary_template := none })]

/-- World of the C6 betrayal witness. -/
def c6World : World :=
  { campaign := none, npcs := [], npcIndex := [], bestiary := [], combat := some c6State }

/-- Npc record that shadows the wolf template name in the C7 scenario. -/
def c7Npc : Npc :=
  { name := "wolf", keywords := [], health := some 7, max_health := some 9,
    hit_chance := some 99, inventory := none }

/-- Wolf template of the C7 scenario. -/
def c7Entry : BestiaryEntry := { hp := "2d6+2", threat_level := some "low", weapons := [] }

/-- World in which an npc record and a bestiary template share the name
wolf. -/
def c7World : World :=
  { campaign := none, npcs := [("wolf", c7Npc)], npcIndex := [], bestiary := [("wolf", c7Entry)], combat := none }

/-- World with only the wolf template, used to witness the clean spawn. -/
def c7wWorld : World :=
  { campaign := none, npcs := [], npcIndex := [], bestiary := [("wolf", c7Entry)], combat := none }

/-- Character record without an inventory key in the C8 scenario. -/
def c8Npc : Npc :=
  { name := "brute", keywords := [], health := some 12, max_health := some 12,
    hit_chance := some 50, inventory := none }

/-- Bestiary entry sharing the name of the inventory-less record. -/
def c8Entry : BestiaryEntry := { hp := "2d6", threat_level := some "moderate", weapons := [("club", "1d8")] }

/-- World of the C8 precedence scenario. -/
def c8World : World :=
  { campaign := none, npcs := [("brute", c8Npc)], npcIndex := [], bestiary := [("brute", c8Entry)], combat := none }

/-- Record with a dagger inventory item used to witness inventory
precedence over an identically named template weapon. -/
def c8wNpc : Npc :=
  { name := "rogue", keywords := [], health := some 10, max_health := some 10,
    hit_chance := some 50,
    inventory := some { money := 0, items := [("Dagger", { weapon := true, damage := some "1d4" })] } }

/-- Template that also offers a dagger under a different formula. -/
def c8wEntry : BestiaryEntry := { hp := "2d6", threat_level := some "moderate", weapons := [("Dagger", "9d9")] }

/-- World of the C8 precedence witness. -/
def c8wWorld : World :=
  { campaign := none, npcs := [("rogue", c8wNpc)], npcIndex := [],
    bestiary := [("rogue", c8wEntry)], combat := none }

/-- Stored combat participant whose key needs slug normalization to match. -/
def c10State : CombatState :=
  [("Wolf-1", { health := 9, max_health := 9, hit_chance := some 35, team := some "pack", bestiary_template := some "wolf" })]

/-- World of the C10 matching scenario. -/
def c10World : World :=
  { campaign := none, npcs := [], npcIndex := [], bestiary := [], combat := some c10State }

/-- Campaign whose designated player is Hero. -/
def c2Campaign : CampaignData := { playerName := "Hero" }

/-- Npc file of the surviving orc in the C2 scenario. -/
def c2Orc : Npc :=
  { name := "Orc", keywords := [], health := some 9, max_health := some 9,
    hit_chance := some 50, inventory := none }

/-- Combat between the designated player and an orc on distinct teams. -/
def c2State : CombatState :=
  [("Hero", { health := 4, max_health := 10, hit_chance := some 50, team := some "good", bestiary_template := none }),
   ("Orc", { health := 3, max_health := 9, hit_chance := some 50, team := some "evil", bestiary_template := none })]

/-- World of the C2 player-departure witness. -/
def c2World : World :=
  { campaign := some c2Campaign, npcs := [("orc", c2Orc)], npcIndex := [], bestiary := [],
    combat := some c2State }

/-- Campaign world of the C2 attack witness: the player is the target of a
lethal blow while a third team keeps combat meaningful. -/
def c2hState : CombatState :=
  [("Bandit", { health := 10, max_health := 10, hit_chance := some 50, team := some "evil", bestiary_template := none }),
   ("Hero", { health := 1, max_health := 10, hit_chance := some 50, team := some "good", bestiary_template := none }),
   ("Orc", { health := 3, max_health := 9, hit_chance := some 50, team := some "chaos", bestiary_template := none })]

/-- World of the C2 attack-death witness. -/
def c2hWorld : World :=
  { campaign := some c2Campaign, npcs := [("orc", c2Orc)], npcIndex := [], bestiary := [],
    combat := some c2hState }

/-- Empty world used by the C3 witness. -/
def c3World : World :=
  { campaign := none, npcs := [], npcIndex := [], bestiary := [], combat := none }

theorem dictGet?_insert_self {α : Type} (d : List (String × α)) (k : String) (v : α) :
    dictGet? (dictInsert d k v) k = some v := by
  induction d with
  | nil => simp [dictInsert, dictGet?]
  | cons hd tl ih =>
    obtain ⟨k0, v0⟩ := hd
    by_cases h : k0 = k
    · simp [dictInsert, h, dictGet?]
    · simp [dictInsert, h, dictGet?, ih]

theorem dictGet?_insert_ne {α : Type} (d : List (String × α)) (k k' : String) (v : α)
    (h : k' ≠ k) : dictGet? (dictInsert d k v) k' = dictGet? d k' := by
  have hke : ¬ (k = k') := fun hh => h hh.symm
  induction d with
  | nil => simp [dictInsert, dictGet?, hke]
  | cons hd tl ih =>
    obtain ⟨k0, v0⟩ := hd
    by_cases h0 : k0 = k
    · subst h0
      simp [dictInsert, dictGet?, hke]
    · simp [dictInsert, h0, dictGet?, ih]

theorem dictGet?_erase_self {α : Type} (d : List (String × α)) (k : String) :
    dictGet? (dictErase d k) k = none := by
  induction d with
  | nil => simp [dictErase, dictGet?]
  | cons hd tl ih =>
    obtain ⟨k0, v0⟩ := hd
    by_cases h : k0 = k
    · simp [dictErase, h, ih]
    · simp [dictErase, h, dictGet?, ih]

theorem dictGet?_erase_ne {α : Type} (d : List (String × α)) (k k' : String)
    (h : k' ≠ k) : dictGet? (dictErase d k) k' = dictGet? d k' := by
  have hke : ¬ (k = k') := fun hh => h hh.symm
  induction d with
  | nil => simp [dictErase]
  | cons hd tl ih =>
    obtain ⟨k0, v0⟩ := hd
    by_cases h0 : k0 = k
    · subst h0
      simp [dictErase, dictGet?, hke, ih]
    · simp [dictErase, h0, dictGet?, ih]

theorem dictErase_insert_self {α : Type} (d : List (String × α)) (k : String) (v : α) :
    dictErase (dictInsert d k v) k = dictErase d k := by
  induction d with
  | nil => simp [dictInsert, dictErase]
  | cons hd tl ih =>
    obtain ⟨k0, v0⟩ := hd
    by_cases h : k0 = k
    · simp [dictInsert, h, dictErase]
    · simp [dictInsert, h, dictErase, ih]

theorem syncNpcHealth_get_ne (npcs : List (String × Npc)) (n : String) (h mx : Int)
    (s : String) (hne : s ≠ slugify n) :
    dictGet? (syncNpcHealth npcs n h mx) s = dictGet? npcs s := by
  unfold syncNpcHealth
  cases hn : dictGet? npcs (slugify n) with
  | none => rfl
  | some npc => exact dictGet?_insert_ne _ _ _ _ hne

theorem syncNpcHealth_get_self (npcs : List (String × Npc)) (n : String) (h mx : Int)
    (npc : Npc) (hn : dictGet? npcs (slugify n) = some npc) :
    dictGet? (syncNpcHealth npcs n h mx) (slugify n)
      = some { npc with health := some h, max_health := some mx } := by
  unfold syncNpcHealth
  rw [hn]
  exact dictGet?_insert_self _ _ _

theorem syncNpcHealth_get_none (npcs : List (String × Npc)) (n : String) (h mx : Int)
    (s : String) (hs : dictGet? npcs s = none) :
    dictGet? (syncNpcHealth npcs n h mx) s = none := by
  by_cases he : s = slugify n
  · subst he
    unfold syncNpcHealth
    rw [hs]
    exact hs
  · rw [syncNpcHealth_get_ne _ _ _ _ _ he, hs]

theorem syncNpcHealth_keywords (npcs : List (String × Npc)) (n : String) (h mx : Int)
    (s : String) :
    (dictGet? (syncNpcHealth npcs n h mx) s).map Npc.keywords
      = (dictGet? npcs s).map Npc.keywords := by
  by_cases he : s = slugify n
  · subst he
    unfold syncNpcHealth
    cases hn : dictGet? npcs (slugify n) with
    | none => rw [hn]
    | some npc =>
      rw [dictGet?_insert_self]
      rfl
  · rw [syncNpcHealth_get_ne _ _ _ _ _ he]

theorem syncAll_get_ne (npcs : List (String × Npc)) (st : CombatState) (s : String)
    (hs : ∀ q ∈ st, slugify q.1 ≠ s) :
    dictGet? (syncAllParticipantsHealth npcs st) s = dictGet? npcs s := by
  induction st generalizing npcs with
  | nil => rfl
  | cons hd tl ih =>
    have h1 : slugify hd.1 ≠ s := hs hd (List.mem_cons_self _ _)
    have hstep : syncAllParticipantsHealth npcs (hd :: tl)
        = syncAllParticipantsHealth (syncNpcHealth npcs hd.1 hd.2.health hd.2.max_health) tl := rfl
    rw [hstep, ih _ (fun q hq => hs q (List.mem_cons_of_mem _ hq)),
      syncNpcHealth_get_ne _ _ _ _ _ (fun hh => h1 hh.symm)]

theorem syncAll_get_none (npcs : List (String × Npc)) (st : CombatState) (s : String)
    (hs : dictGet? npcs s = none) :
    dictGet? (syncAllParticipantsHealth npcs st) s = none := by
  induction st generalizing npcs with
  | nil => exact hs
  | cons hd tl ih => exact ih _ (syncNpcHealth_get_none _ _ _ _ _ hs)

theorem syncAll_get_mem (st : CombatState) (npcs : List (String × Npc))
    (hnd : (st.map (fun q => slugify q.1)).Nodup)
    (n : String) (p : Participant) (hmem : (n, p) ∈ st) (npc : Npc)
    (hn : dictGet? (syncAllParticipantsHealth npcs st) (slugify n) = some npc) :
    npc.health = some p.health ∧ npc.max_health = some p.max_health := by
  induction st generalizing npcs with
  | nil => cases hmem
  | cons hd tl ih =>
    have hstep : syncAllParticipantsHealth npcs (hd :: tl)
        = syncAllParticipantsHealth (syncNpcHealth npcs hd.1 hd.2.health hd.2.max_health) tl := rfl
    rw [hstep] at hn
    rcases List.mem_cons.mp hmem with heq | htl
    · have hd1 : hd.1 = n := by rw [← heq]
      have hd2 : hd.2 = p := by rw [← heq]
      have hnot : ∀ q ∈ tl, slugify q.1 ≠ slugify n := by
        intro q hq hcontra
        have hhead : slugify hd.1 ∉ tl.map (fun q => slugify q.1) :=
          (List.nodup_cons.mp hnd).1
        apply hhead
        rw [hd1, ← hcontra]
        exact List.mem_map_of_mem _ hq
      rw [syncAll_get_ne _ _ _ hnot, hd1, hd2] at hn
      cases h0 : dictGet? npcs (slugify n) with
      | none =>
        rw [syncNpcHealth_get_none _ _ _ _ _ h0] at hn
        cases hn
      | some npc0 =>
        rw [syncNpcHealth_get_self _ _ _ _ _ h0] at hn
        cases hn
        exact ⟨rfl, rfl⟩
    · exact ih _ (List.nodup_cons.mp hnd).2 htl hn

theorem playerNameMatches_npcs (w : World) (npcs : List (String × Npc)) (x : String) :
    playerNameMatches { w with npcs := npcs } x = playerNameMatches w x := rfl

theorem playerKeywordMatches_congr (w w' : World) (x : String)
    (hk : (dictGet? w'.npcs (slugify x)).map Npc.keywords
        = (dictGet? w.npcs (slugify x)).map Npc.keywords) :
    playerKeywordMatches w' x = playerKeywordMatches w x := by
  unfold playerKeywordMatches
  cases h1 : dictGet? w.npcs (slugify x) with
  | none =>
    cases h2 : dictGet? w'.npcs (slugify x) with
    | none => rfl
    | some npc2 => rw [h1, h2] at hk; cases hk
  | some npc =>
    cases h2 : dictGet? w'.npcs (slugify x) with
    | none => rw [h1, h2] at hk; cases hk
    | some npc2 =>
      rw [h1, h2] at hk
      have hkk : npc2.keywords = npc.keywords := by
        simpa using hk
      dsimp only
      rw [hkk]

theorem isParticipantPlayer_sync (w : World) (n : String) (h mx : Int) (x : String) :
    isParticipantPlayer { w with npcs := syncNpcHealth w.npcs n h mx } x
      = isParticipantPlayer w x := by
  unfold isParticipantPlayer
  rw [playerNameMatches_npcs,
    playerKeywordMatches_congr w { w with npcs := syncNpcHealth w.npcs n h mx } x
      (syncNpcHealth_keywords _ _ _ _ _)]

theorem isParticipantPlayer_death_true (w : World) (x : String)
    (hp : isParticipantPlayer w x = true) :
    isParticipantPlayer (handleParticipantDeath w x) x = true := by
  cases h0 : dictGet? w.npcs (slugify x) with
  | none => simp only [handleParticipantDeath, h0]; exact hp
  | some npc =>
    have hkeep : isParticipantPlayer
        { w with npcs := dictInsert w.npcs (slugify x) { npc with health := some 0 } } x
        = isParticipantPlayer w x := by
      unfold isParticipantPlayer
      rw [playerNameMatches_npcs]
      rw [playerKeywordMatches_congr w
        { w with npcs := dictInsert w.npcs (slugify x) { npc with health := some 0 } } x]
      show (dictGet? (dictInsert w.npcs (slugify x) { npc with health := some 0 })
        (slugify x)).map Npc.keywords = (dictGet? w.npcs (slugify x)).map Npc.keywords
      rw [dictGet?_insert_self, h0]
      rfl
    simp only [handleParticipantDeath, h0]
    simp [hkeep, hp]

theorem isParticipantPlayer_death_false (w : World) (x : String)
    (hp : isParticipantPlayer w x = false) :
    isParticipantPlayer (handleParticipantDeath w x) x = false := by
  have hname : playerNameMatches w x = false := by
    unfold isParticipantPlayer at hp
    exact (Bool.or_eq_false_iff.mp hp).1
  cases h0 : dictGet? w.npcs (slugify x) with
  | none => simp only [handleParticipantDeath, h0]; exact hp
  | some npc =>
    have hkeep : isParticipantPlayer
        { w with npcs := dictInsert w.npcs (slugify x) { npc with health := some 0 } } x
        = isParticipantPlayer w x := by
      unfold isParticipantPlayer
      rw [playerNameMatches_npcs]
      rw [playerKeywordMatches_congr w
        { w with npcs := dictInsert w.npcs (slugify x) { npc with health := some 0 } } x]
      show (dictGet? (dictInsert w.npcs (slugify x) { npc with health := some 0 })
        (slugify x)).map Npc.keywords = (dictGet? w.npcs (slugify x)).map Npc.keywords
      rw [dictGet?_insert_self, h0]
      rfl
    simp only [handleParticipantDeath, h0]
    have hcond : isParticipantPlayer
        { w with npcs := dictInsert w.npcs (slugify x) { npc with health := some 0 } } x
        = false := hkeep.trans hp
    simp only [hcond]
    unfold isParticipantPlayer
    have hkw : playerKeywordMatches
        { w with npcs := (dictErase (dictInsert w.npcs (slugify x)
          { npc with health := some 0 }) (slugify x)) } x = false := by
      unfold playerKeywordMatches
      dsimp only
      rw [dictGet?_erase_self]
    simp only [Bool.false_eq_true, if_false]
    rw [playerNameMatches_npcs, hname, hkw]
    rfl

theorem randInt_bounds (sides : Nat) (g : List Nat) (hs : 0 < sides) :
    1 ≤ (randInt sides g).1 ∧ (randInt sides g).1 ≤ sides := by
  cases g with
  | nil => exact ⟨le_refl 1, hs⟩
  | cons x rest =>
    simp only [randInt]
    have hmax : max sides 1 = sides := Nat.max_eq_left hs
    rw [hmax]
    have := Nat.mod_lt x hs
    omega

theorem rollN_bounds (count sides : Nat) (g : List Nat) (hs : 0 < sides) :
    count ≤ (rollN count sides g).1 ∧ (rollN count sides g).1 ≤ count * sides := by
  induction count generalizing g with
  | zero => simp [rollN]
  | succ n ih =>
    rcases hr : randInt sides g with ⟨v, g1⟩
    rcases hn : rollN n sides g1 with ⟨rest, g2⟩
    have hstep : rollN (n + 1) sides g = (v + rest, g2) := by
      simp only [rollN, hr, hn]
    obtain ⟨h1, h2⟩ := randInt_bounds sides g hs
    obtain ⟨h3, h4⟩ := ih g1
    rw [hr] at h1 h2
    rw [hn] at h3 h4
    rw [hstep]
    have hmul : (n + 1) * sides = n * sides + sides := by ring
    simp only []
    omega

theorem attackMiss_error (w : World) (st2 : CombatState) (atkRes tgtRes weapon : String)
    (g : List Nat) : (attackMiss w st2 atkRes tgtRes weapon g).error = none := by
  unfold attackMiss
  rcases hb : checkTeamBetrayal st2 atkRes tgtRes with ⟨st3, betrayed⟩
  simp only [hb]

theorem attackHitCore_error (w : World) (st3 : CombatState) (lines0 : List String)
    (atkRes tgtRes weapon : String) (fOpt : Option String) (isImp : Bool) (g : List Nat) :
    (attackHitCore w st3 lines0 atkRes tgtRes weapon fOpt isImp g).error = none := by
  unfold attackHitCore
  rcases hd : rollDice (fOpt.getD "1") g with ⟨damage, g1⟩
  rcases hc : randChoice hitLocations g1 with ⟨loc, g2⟩
  simp only [hd, hc]
  split
  · split
    · rfl
    · unfold checkAndEndCombat
      split <;> rfl
  · rfl

theorem attackHit_error (w : World) (st2 : CombatState) (atkRes tgtRes weapon : String)
    (g : List Nat) : (attackHit w st2 atkRes tgtRes weapon g).error = none := by
  unfold attackHit
  rcases hs : selfOrBetrayal st2 atkRes tgtRes with ⟨st3, lines0⟩
  rcases hw : resolveWeapon w atkRes (dictGet? st2 atkRes) weapon with ⟨fOpt, isImp, e⟩
  simp only [hs, hw]
  exact attackHitCore_error _ _ _ _ _ _ _ _ _

/-- C3: when an attack call fails (attacker or target unresolved, weapon
validation failure, or missing stats during initialization), every store is
left exactly as it was: no participant is persisted and no orphan state
remains. -/
theorem attack_failure_preserves_stores (w : World) (attacker target : String)
    (weaponArg teamArg : Option String) (g : List Nat)
    (h : (handleAttack w attacker target weaponArg teamArg g).error.isSome = true) :
    (handleAttack w attacker target weaponArg teamArg g).world = w := by
  unfold handleAttack at h ⊢
  cases hA : resolveAttackName w (w.combat.getD []) attacker with
  | none => simp only [hA]
  | some atkRes =>
    cases hT : resolveAttackName w (w.combat.getD []) target with
    | none => simp only [hA, hT]
    | some tgtRes =>
      cases hW : (resolveWeapon w atkRes (dictGet? (w.combat.getD []) atkRes)
          ((truthyOpt weaponArg).getD "unarmed")).2.2 with
      | some e => simp only [hA, hT, hW]
      | none =>
        rcases hM : materializeParticipants w (w.combat.getD []) attacker atkRes target tgtRes
            teamArg g with ⟨res, g1⟩
        cases res with
        | error e => simp only [hA, hT, hW, hM]
        | ok st1 =>
          exfalso
          rcases hR : rollDice "1d100" g1 with ⟨hitRoll, g2⟩
          simp only [hA, hT, hW, hM, hR] at h
          by_cases hH : hitRoll ≤ ((dictGet? (applyTeamOverwrite st1 atkRes teamArg)
              atkRes).getD defaultParticipant).hit_chance.getD 50
          · rw [if_pos hH] at h
            rw [attackHit_error] at h
            cases h
          · rw [if_neg hH] at h
            rw [attackMiss_error] at h
            cases h

/-- Witness: a call with an unknown attacker fails and leaves the empty
world untouched. -/
theorem attack_failure_preserves_stores_witness :
    (handleAttack c3World "nobody" "stranger" none none []).error.isSome = true ∧
    (handleAttack c3World "nobody" "stranger" none none []).world = c3World :=
  ⟨by decide, attack_failure_preserves_stores c3World "nobody" "stranger" none none [] (by decide)⟩

/-- C1 counterexample: spawning the first enemy into an empty campaign
persists an Active combat state whose participants span a single team, and a
self-attack that misses likewise persists a one-team Active state, so the
claimed once-per-mutation end condition holds neither for spawnEnemy nor for
non-lethal attack outcomes. -/
theorem spawn_persists_single_team_state :
    (handleSpawnEnemy c1World "Wolf-1" "wolf" none [2, 3]).error = none ∧
    (handleSpawnEnemy c1World "Wolf-1" "wolf" none [2, 3]).world.combat =
      some [("Wolf-1", (⟨9, 9, some 35, some "Wolf-1", some "wolf"⟩ : Participant))] ∧
    distinctTeamCount [("Wolf-1", (⟨9, 9, some 35, some "Wolf-1", some "wolf"⟩ : Participant))] ≤ 1 ∧
    (handleAttack c1mWorld "solo" "solo" none none [99]).error = none ∧
    (handleAttack c1mWorld "solo" "solo" none none [99]).world.combat =
      some [("solo", (⟨10, 10, some 50, some "solo", none⟩ : Participant))] ∧
    distinctTeamCount [("solo", (⟨10, 10, some 50, some "solo", none⟩ : Participant))] ≤ 1 :=
  ⟨by decide, by decide, by decide, by decide, by decide, by decide⟩

/-- C1 (amended): the one-team end condition governs removeFromCombat for a
non-player participant and the attack death path for a non-player target —
after the removal the Active record is deleted exactly when at most one
distinct team remains among the remaining participants — while spawnEnemy,
a missed attack, and a hit that leaves the target alive persist the Active
state unconditionally, with no end-condition check. -/
theorem removal_end_condition :
    (∀ (w : World) (name : String) (reasonArg : Option String) (st : CombatState),
      w.combat = some st →
      (dictGet? st name).isSome = true →
      isParticipantPlayer w name = false →
      ((handleRemoveFromCombat w name reasonArg).world.combat = none
        ↔ distinctTeamCount (dictErase st name) ≤ 1))
    ∧
    (∀ (w : World) (st3 : CombatState) (lines0 : List String)
       (atkRes tgtRes weapon : String) (fOpt : Option String) (isImp : Bool)
       (g g1 : List Nat) (td : Participant) (dmg : Int),
      dictGet? st3 tgtRes = some td →
      rollDice (fOpt.getD "1") g = (dmg, g1) →
      td.health ≤ dmg →
      isParticipantPlayer w tgtRes = false →
      ((attackHitCore w st3 lines0 atkRes tgtRes weapon fOpt isImp g).world.combat = none
        ↔ distinctTeamCount (dictErase st3 tgtRes) ≤ 1))
    ∧
    (∀ (w : World) (st3 : CombatState) (lines0 : List String)
       (atkRes tgtRes weapon : String) (fOpt : Option String) (isImp : Bool)
       (g g1 : List Nat) (td : Participant) (dmg : Int),
      dictGet? st3 tgtRes = some td →
      rollDice (fOpt.getD "1") g = (dmg, g1) →
      dmg < td.health →
      (attackHitCore w st3 lines0 atkRes tgtRes weapon fOpt isImp g).world.combat =
        some (dictInsert st3 tgtRes { td with health := max 0 (td.health - dmg) }))
    ∧
    (∀ (w : World) (st2 : CombatState) (a t weapon : String) (g : List Nat),
      (attackMiss w st2 a t weapon g).world.combat =
        some ((attackMiss w st2 a t weapon g).finalState))
    ∧
    (∀ (w : World) (name bestiaryTemplate : String) (teamArg : Option String) (g : List Nat),
      (handleSpawnEnemy w name bestiaryTemplate teamArg g).error = none →
      ∃ st1, (handleSpawnEnemy w name bestiaryTemplate teamArg g).world.combat = some st1) := by
  refine ⟨?_, ?_, ?_, ?_, ?_⟩
  · intro w name reasonArg st hc hin hnp
    unfold handleRemoveFromCombat
    rw [hc]
    have hnone : (dictGet? st name).isNone = false := by
      cases hq : dictGet? st name
      · rw [hq] at hin; cases hin
      · rfl
    have hplayer : ∀ w1 : World,
        (if reasonArg.getD "death" = "death" then handleParticipantDeath w name else w) = w1 →
        isParticipantPlayer w1 name = false := by
      intro w1 hw1
      by_cases hr : reasonArg.getD "death" = "death"
      · rw [if_pos hr] at hw1
        rw [← hw1]
        exact isParticipantPlayer_death_false w name hnp
      · rw [if_neg hr] at hw1
        rw [← hw1]
        exact hnp
    simp only [hnone]
    rw [hplayer _ rfl]
    unfold checkAndEndCombat
    by_cases hteams : distinctTeamCount (dictErase st name) ≤ 1
    · simp [hteams]
    · simp [hteams]
  · intro w st3 lines0 atkRes tgtRes weapon fOpt isImp g g1 td dmg htd hroll hdead hnp
    have hw1 : isParticipantPlayer
        { w with npcs := syncNpcHealth w.npcs tgtRes (max 0 (td.health - dmg)) td.max_health }
        tgtRes = false := by
      rw [isParticipantPlayer_sync]
      exact hnp
    have hw2 : isParticipantPlayer (handleParticipantDeath
        { w with npcs := syncNpcHealth w.npcs tgtRes (max 0 (td.health - dmg)) td.max_health }
        tgtRes) tgtRes = false := isParticipantPlayer_death_false _ _ hw1
    have hp2 : ¬ (isParticipantPlayer (handleParticipantDeath
        { w with npcs := syncNpcHealth w.npcs tgtRes (max 0 (td.health - dmg)) td.max_health }
        tgtRes) tgtRes = true) := by
      rw [hw2]
      exact Bool.false_ne_true
    have hcond : max 0 (td.health - dmg) ≤ 0 :=
      max_le (le_refl 0) (by omega)
    unfold attackHitCore
    rcases hcx : randChoice hitLocations g1 with ⟨loc, g2⟩
    simp only [hroll, hcx, htd, Option.getD_some]
    rw [if_pos hcond, if_neg hp2]
    unfold checkAndEndCombat
    rw [dictErase_insert_self]
    by_cases ht : distinctTeamCount (dictErase st3 tgtRes) ≤ 1
    · rw [if_pos ht]
      exact ⟨fun _ => ht, fun _ => rfl⟩
    · rw [if_neg ht]
      exact ⟨fun h => Option.noConfusion h, fun h => absurd h ht⟩
  · intro w st3 lines0 atkRes tgtRes weapon fOpt isImp g g1 td dmg htd hroll hsurv
    have hcond : ¬ (max 0 (td.health - dmg) ≤ 0) := by
      intro hcontra
      rw [max_le_iff] at hcontra
      omega
    unfold attackHitCore
    rcases hcx : randChoice hitLocations g1 with ⟨loc, g2⟩
    simp only [hroll, hcx, htd, Option.getD_some]
    rw [if_neg hcond]
  · intro w st2 a t weapon g
    unfold attackMiss
    rcases hb : checkTeamBetrayal st2 a t with ⟨st3, betrayed⟩
    simp only [hb]
  · intro w name bestiaryTemplate teamArg g herr
    unfold handleSpawnEnemy at herr ⊢
    cases hB : dictGet? w.bestiary (lowerStr bestiaryTemplate) with
    | none => simp only [hB] at herr; cases herr
    | some entry =>
      simp only [hB] at herr ⊢
      by_cases hdup : (dictGet? (w.combat.getD []) name).isSome = true
      · simp only [hdup, if_true] at herr
        cases herr
      · simp only [hdup] at herr ⊢
        rcases hS : getParticipantStats w bestiaryTemplate g with ⟨stats, g1⟩
        cases stats with
        | none => simp only [hS] at herr; cases herr
        | some p =>
          simp only [hS] at herr ⊢
          exact ⟨_, rfl⟩

/-- Witness: removing one of two participants on distinct teams deletes the
record; a lethal hit that leaves two teams persists the record while one
that leaves the target alive saves it unchanged apart from the damage; a
successful spawn always persists one. -/
theorem removal_end_condition_witness :
    (handleRemoveFromCombat c1wWorld "a" (some "flee")).world.combat = none ∧
    (attackHitCore c1dWorld c1dState [] "axe" "bat" "club" (some "1d4") false
      [3, 0]).world.combat ≠ none ∧
    (attackHitCore c1dWorld c1dState [] "axe" "cat" "club" (some "1d4") false
      [3, 0]).world.combat =
      some (dictInsert c1dState "cat"
        { (⟨9, 9, some 50, some "blue", none⟩ : Participant) with
          health := max 0 ((9 : Int) - 4) }) ∧
    (∃ st1, (handleSpawnEnemy c1World "Wolf-1" "wolf" none [2, 3]).world.combat = some st1) :=
  ⟨(removal_end_condition.1 c1wWorld "a" (some "flee") c1wState (by decide) (by decide)
      (by decide)).mpr (by decide),
   fun h => absurd ((removal_end_condition.2.1 c1dWorld c1dState [] "axe" "bat" "club"
      (some "1d4") false [3, 0] [0] (⟨1, 8, some 50, some "blue", none⟩ : Participant) 4
      (by decide) (by decide) (by decide) (by decide)).mp h) (by decide),
   removal_end_condition.2.2.1 c1dWorld c1dState [] "axe" "cat" "club" (some "1d4") false
     [3, 0] [0] (⟨9, 9, some 50, some "blue", none⟩ : Participant) 4
     (by decide) (by decide) (by decide),
   removal_end_condition.2.2.2.2 c1World "Wolf-1" "wolf" none [2, 3] (by decide)⟩

theorem findCombatParticipant_isSome (st : CombatState) (q : String) :
    (findCombatParticipant st q).isSome = true ↔ ∃ p ∈ st, slugify p.1 = slugify q := by
  induction st with
  | nil => simp [findCombatParticipant]
  | cons hd tl ih =>
    obtain ⟨k0, p0⟩ := hd
    by_cases h : slugify k0 = slugify q
    · simp [findCombatParticipant, h]
    · simp only [findCombatParticipant, if_neg h]
      rw [ih]
      constructor
      · rintro ⟨p, hp, he⟩
        exact ⟨p, List.mem_cons_of_mem _ hp, he⟩
      · rintro ⟨p, hp, he⟩
        rcases List.mem_cons.mp hp with heq | htl
        · exfalso
          apply h
          rw [heq] at he
          exact he
        · exact ⟨p, htl, he⟩

/-- C10: removeFromCombat matches its name against the stored participant
keys by exact string equality and otherwise fails with a not-in-combat
message leaving every store unchanged, while the attack handler resolves a
stored participant whenever the slugs coincide; the stored participant
Wolf-1 is resolvable by attack under the variant wolf-1 yet rejected by
removeFromCombat under the same string. -/
theorem removal_exact_vs_attack_slug_matching :
    (∀ (w : World) (name : String) (reasonArg : Option String) (st : CombatState),
      w.combat = some st → dictGet? st name = none →
      (handleRemoveFromCombat w name reasonArg).world = w ∧
      (handleRemoveFromCombat w name reasonArg).text = name ++ " is not in combat.")
    ∧
    (∀ (st : CombatState) (q : String),
      (findCombatParticipant st q).isSome = true ↔ ∃ p ∈ st, slugify p.1 = slugify q)
    ∧
    (findCombatParticipant c10State "wolf-1" = some "Wolf-1" ∧
     (handleRemoveFromCombat c10World "wolf-1" (some "flee")).text = "wolf-1 is not in combat." ∧
     (handleRemoveFromCombat c10World "wolf-1" (some "flee")).world = c10World) := by
  refine ⟨?_, fun st q => findCombatParticipant_isSome st q, by decide, by decide, by decide⟩
  intro w name reasonArg st hc hmiss
  unfold handleRemoveFromCombat
  rw [hc]
  have hnone : (dictGet? st name).isNone = true := by rw [hmiss]; rfl
  simp [hnone]

/-- Witness: the exact-match rejection and the slug-based resolution of the
same request string on the stored participant Wolf-1. -/
theorem removal_exact_vs_attack_slug_matching_witness :
    (handleRemoveFromCombat c10World "wolf-1" (some "death")).text = "wolf-1 is not in combat." ∧
    (findCombatParticipant c10State "wolf-1").isSome = true :=
  ⟨(removal_exact_vs_attack_slug_matching.1 c10World "wolf-1" (some "death") c10State
      (by decide) (by decide)).2,
   (removal_exact_vs_attack_slug_matching.2.1 c10State "wolf-1").mpr
     ⟨("Wolf-1", (⟨9, 9, some 35, some "pack", some "wolf"⟩ : Participant)), by decide, by decide⟩⟩

/-- C4 counterexample: a character record stored at zero health (exactly how
handle_participant_death leaves a dead player's file) is materialized
verbatim by an attack, and a miss persists the Active state containing a
participant with health 0, refuting the claimed store invariant. -/
theorem zero_health_participant_persisted :
    (handleAttack c4World "hero" "ghost" none none [99]).error = none ∧
    (handleAttack c4World "hero" "ghost" none none [99]).world.combat =
      some [("hero", (⟨10, 10, some 50, some "hero", none⟩ : Participant)),
            ("ghost", (⟨0, 10, some 50, some "ghost", none⟩ : Participant))] :=
  ⟨by decide, by decide⟩

/-- C4 (amended): along the attack-damage path the invariant does hold: a
target whose health reaches 0 is removed from the participants mapping in
the same transition, so whenever the hit branch persists an Active state
still containing the target, that target's health is positive.  The blanket
claim fails only because materialization copies character-record health
verbatim. -/
theorem attack_damage_zero_removes_target (w : World) (st3 : CombatState)
    (lines0 : List String) (atkRes tgtRes weapon : String) (fOpt : Option String)
    (isImp : Bool) (g : List Nat) (td : Participant)
    (htd : dictGet? st3 tgtRes = some td)
    (stF : CombatState)
    (hF : (attackHitCore w st3 lines0 atkRes tgtRes weapon fOpt isImp g).world.combat = some stF)
    (pd : Participant) (hpd : dictGet? stF tgtRes = some pd) :
    0 < pd.health := by
  unfold attackHitCore at hF
  rcases hd : rollDice (fOpt.getD "1") g with ⟨damage, g1⟩
  rcases hc : randChoice hitLocations g1 with ⟨loc, g2⟩
  simp only [hd, hc, htd, Option.getD_some] at hF
  by_cases hz : max 0 (td.health - damage) ≤ 0
  · rw [if_pos hz] at hF
    by_cases hp : isParticipantPlayer (handleParticipantDeath
        { w with npcs := syncNpcHealth w.npcs tgtRes (max 0 (td.health - damage)) td.max_health }
        tgtRes) tgtRes = true
    · rw [if_pos hp] at hF
      simp only [endCombatForPlayer] at hF
      cases hF
    · rw [if_neg hp] at hF
      unfold checkAndEndCombat at hF
      by_cases ht : distinctTeamCount (dictErase
          (dictInsert st3 tgtRes { td with health := max 0 (td.health - damage) }) tgtRes) ≤ 1
      · rw [if_pos ht] at hF
        cases hF
      · rw [if_neg ht] at hF
        have hstF : stF = dictErase
            (dictInsert st3 tgtRes { td with health := max 0 (td.health - damage) }) tgtRes := by
          have := hF
          simp only at this
          exact (Option.some.injEq _ _ ▸ this).symm
        rw [hstF, dictGet?_erase_self] at hpd
        cases hpd
  · rw [if_neg hz] at hF
    have hstF : stF = dictInsert st3 tgtRes { td with health := max 0 (td.health - damage) } := by
      have := hF
      simp only at this
      exact (Option.some.injEq _ _ ▸ this).symm
    rw [hstF, dictGet?_insert_self] at hpd
    cases hpd
    simp only []
    omega

/-- Witness: a surviving target persists with positive health after a hit. -/
theorem attack_damage_zero_removes_target_witness :
    dictGet? c4wState "troll" = some c4wSurvivor ∧
    (0 : Int) < (Participant.health ⟨6, 9, some 50, some "blue", none⟩) :=
  ⟨by decide,
   attack_damage_zero_removes_target c4wWorld c4wState [] "hero" "troll" "club" (some "1d4")
     false [2, 0] c4wSurvivor (by decide)
     [("hero", ⟨10, 10, some 50, some "red", none⟩),
      ("orc", ⟨1, 5, some 50, some "blue", none⟩),
      ("troll", ⟨6, 9, some 50, some "blue", none⟩)]
     (by decide) ⟨6, 9, some 50, some "blue", none⟩ (by decide)⟩

theorem attackHitCore_finalState (w : World) (st3 : CombatState) (lines0 : List String)
    (atkRes tgtRes weapon : String) (fOpt : Option String) (isImp : Bool) (g : List Nat)
    (td : Participant) (htd : dictGet? st3 tgtRes = some td) :
    (attackHitCore w st3 lines0 atkRes tgtRes weapon fOpt isImp g).finalState =
      (if max 0 (td.health - (rollDice (fOpt.getD "1") g).1) ≤ 0
       then dictErase (dictInsert st3 tgtRes
         { td with health := max 0 (td.health - (rollDice (fOpt.getD "1") g).1) }) tgtRes
       else dictInsert st3 tgtRes
         { td with health := max 0 (td.health - (rollDice (fOpt.getD "1") g).1) }) := by
  unfold attackHitCore
  rcases hd : rollDice (fOpt.getD "1") g with ⟨damage, g1⟩
  rcases hc : randChoice hitLocations g1 with ⟨loc, g2⟩
  simp only [hd, hc, htd, Option.getD_some]
  by_cases hz : max 0 (td.health - damage) ≤ 0
  · rw [if_pos hz, if_pos hz]
    split <;> rfl
  · rw [if_neg hz, if_neg hz]

theorem attackHitCore_combat_persist (w : World) (st3 : CombatState) (lines0 : List String)
    (atkRes tgtRes weapon : String) (fOpt : Option String) (isImp : Bool) (g : List Nat) :
    (attackHitCore w st3 lines0 atkRes tgtRes weapon fOpt isImp g).world.combat = none ∨
    (attackHitCore w st3 lines0 atkRes tgtRes weapon fOpt isImp g).world.combat =
      some (attackHitCore w st3 lines0 atkRes tgtRes weapon fOpt isImp g).finalState := by
  unfold attackHitCore
  rcases hd : rollDice (fOpt.getD "1") g with ⟨damage, g1⟩
  rcases hc : randChoice hitLocations g1 with ⟨loc, g2⟩
  simp only [hd, hc]
  split
  · split
    · left
      simp [endCombatForPlayer]
    · unfold checkAndEndCombat
      split
      · left
        rfl
      · right
        rfl
  · right
    rfl

theorem attackHitCore_lines_mono (w : World) (st3 : CombatState) (lines0 : List String)
    (atkRes tgtRes weapon : String) (fOpt : Option String) (isImp : Bool) (g : List Nat)
    (x : String) (hx : x ∈ lines0) :
    x ∈ (attackHitCore w st3 lines0 atkRes tgtRes weapon fOpt isImp g).lines := by
  unfold attackHitCore
  rcases hd : rollDice (fOpt.getD "1") g with ⟨damage, g1⟩
  rcases hc : randChoice hitLocations g1 with ⟨loc, g2⟩
  simp only [hd, hc]
  split
  · split
    · simp [endCombatForPlayer, hx]
    · unfold checkAndEndCombat
      split <;> simp [hx]
  · simp [hx]

theorem checkTeamBetrayal_shared (st2 : CombatState) (a t : String) (pa pt : Participant)
    (hpa : dictGet? st2 a = some pa) (hpt : dictGet? st2 t = some pt)
    (hteam : pa.team = pt.team) :
    checkTeamBetrayal st2 a t = (dictInsert st2 a { pa with team := some a }, true) := by
  unfold checkTeamBetrayal
  rw [hpa, hpt]
  simp [hteam]

theorem selfOrBetrayal_ne (st2 : CombatState) (a t : String) (pa pt : Participant)
    (hne : a ≠ t) (hpa : dictGet? st2 a = some pa) (hpt : dictGet? st2 t = some pt)
    (hteam : pa.team = pt.team) :
    selfOrBetrayal st2 a t =
      (dictInsert st2 a { pa with team := some a }, [a ++ " has betrayed their team!"]) := by
  unfold selfOrBetrayal
  rw [if_neg hne, checkTeamBetrayal_shared st2 a t pa pt hpa hpt hteam]
  rfl

theorem selfOrBetrayal_self (st2 : CombatState) (a : String) :
    selfOrBetrayal st2 a a = (st2, [a ++ " was their own worst enemy all along."]) := by
  unfold selfOrBetrayal
  rw [if_pos rfl]

theorem attackMiss_betray_finalState (w : World) (st2 : CombatState) (a t : String)
    (weapon : String) (g : List Nat) (pa pt : Participant)
    (hpa : dictGet? st2 a = some pa) (hpt : dictGet? st2 t = some pt)
    (hteam : pa.team = pt.team) :
    (attackMiss w st2 a t weapon g).finalState = dictInsert st2 a { pa with team := some a } := by
  unfold attackMiss
  rw [checkTeamBetrayal_shared st2 a t pa pt hpa hpt hteam]

theorem attackMiss_betray_combat (w : World) (st2 : CombatState) (a t : String)
    (weapon : String) (g : List Nat) (pa pt : Participant)
    (hpa : dictGet? st2 a = some pa) (hpt : dictGet? st2 t = some pt)
    (hteam : pa.team = pt.team) :
    (attackMiss w st2 a t weapon g).world.combat
      = some (dictInsert st2 a { pa with team := some a }) := by
  unfold attackMiss
  rw [checkTeamBetrayal_shared st2 a t pa pt hpa hpt hteam]

theorem attackMiss_betray_lines (w : World) (st2 : CombatState) (a t : String)
    (weapon : String) (g : List Nat) (pa pt : Participant)
    (hpa : dictGet? st2 a = some pa) (hpt : dictGet? st2 t = some pt)
    (hteam : pa.team = pt.team) :
    (a ++ " has betrayed their team!") ∈ (attackMiss w st2 a t weapon g).lines := by
  unfold attackMiss
  rw [checkTeamBetrayal_shared st2 a t pa pt hpa hpt hteam]
  cases hq : dictGet? (dictInsert st2 a { pa with team := some a }) t <;> simp [hq]

theorem attackHit_self_step (w : World) (st2 : CombatState) (a weapon : String) (g : List Nat) :
    attackHit w st2 a a weapon g
      = attackHitCore w st2 [a ++ " was their own worst enemy all along."] a a weapon
          (resolveWeapon w a (dictGet? st2 a) weapon).1
          (resolveWeapon w a (dictGet? st2 a) weapon).2.1 g := by
  unfold attackHit
  rw [selfOrBetrayal_self]

/-- C5 counterexample: on a self-attack that misses, the betrayal check still
runs: the attacker is moved from its alliance team onto a solo team named
after itself and the betrayal narration is produced, with no distinct
self-attack narration, refuting the claim for the miss branch. -/
theorem self_attack_miss_triggers_betrayal :
    dictGet? c5State "hero" =
      some (⟨10, 10, some 50, some "alliance", none⟩ : Participant) ∧
    (handleAttack c5World "hero" "hero" none none [99]).world.combat =
      some [("hero", (⟨10, 10, some 50, some "hero", none⟩ : Participant))] ∧
    ("hero has betrayed their team!") ∈ (handleAttack c5World "hero" "hero" none none [99]).lines ∧
    ¬ ("hero was their own worst enemy all along.")
        ∈ (handleAttack c5World "hero" "hero" none none [99]).lines :=
  ⟨by decide, by decide, by decide, by decide⟩

/-- C5 (amended): on the hit branch a self-attack is narrated distinctly and
skips the betrayal logic, leaving the attacker's team unchanged wherever the
attacker survives in the final participants mapping; on the miss branch the
betrayal check runs even for a self-attack, resetting the attacker's team to
its own resolved name and producing the betrayal narration. -/
theorem self_attack_narration_and_teams (w : World) (st2 : CombatState) (a weapon : String)
    (g : List Nat) (pa : Participant) (hpa : dictGet? st2 a = some pa) :
    (((a ++ " was their own worst enemy all along.") ∈ (attackHit w st2 a a weapon g).lines) ∧
     (∀ pa', dictGet? (attackHit w st2 a a weapon g).finalState a = some pa' →
        pa'.team = pa.team))
    ∧
    (((a ++ " has betrayed their team!") ∈ (attackMiss w st2 a a weapon g).lines) ∧
     dictGet? (attackMiss w st2 a a weapon g).finalState a = some { pa with team := some a }) := by
  refine ⟨⟨?_, ?_⟩, ?_, ?_⟩
  · rw [attackHit_self_step]
    exact attackHitCore_lines_mono _ _ _ _ _ _ _ _ _ _ (List.mem_singleton.mpr rfl)
  · rw [attackHit_self_step]
    rw [attackHitCore_finalState w st2 _ a a weapon _ _ g pa hpa]
    by_cases hz : max 0 (pa.health -
        (rollDice ((resolveWeapon w a (dictGet? st2 a) weapon).1.getD "1") g).1) ≤ 0
    · rw [if_pos hz]
      intro pa' hpa'
      rw [dictGet?_erase_self] at hpa'
      cases hpa'
    · rw [if_neg hz]
      intro pa' hpa'
      rw [dictGet?_insert_self] at hpa'
      cases hpa'
      rfl
  · exact attackMiss_betray_lines w st2 a a weapon g pa pa hpa hpa rfl
  · rw [attackMiss_betray_finalState w st2 a a weapon g pa pa hpa hpa rfl]
    exact dictGet?_insert_self _ _ _

/-- Witness: the amended self-attack behaviour at a concrete state. -/
theorem self_attack_narration_and_teams_witness :
    ("hero has betrayed their team!") ∈ (attackMiss c5World c5State "hero" "hero" "unarmed" []).lines ∧
    dictGet? (attackMiss c5World c5State "hero" "hero" "unarmed" []).finalState "hero" =
      some (⟨10, 10, some 50, some "hero", none⟩ : Participant) :=
  ⟨(self_attack_narration_and_teams c5World c5State "hero" "unarmed" []
      (⟨10, 10, some 50, some "alliance", none⟩ : Participant) (by decide)).2.1,
   (self_attack_narration_and_teams c5World c5State "hero" "unarmed" []
      (⟨10, 10, some 50, some "alliance", none⟩ : Participant) (by decide)).2.2⟩

theorem attackHit_betray_step (w : World) (st2 : CombatState) (a t weapon : String)
    (g : List Nat) (pa pt : Participant) (hne : a ≠ t)
    (hpa : dictGet? st2 a = some pa) (hpt : dictGet? st2 t = some pt)
    (hteam : pa.team = pt.team) :
    attackHit w st2 a t weapon g
      = attackHitCore w (dictInsert st2 a { pa with team := some a })
          [a ++ " has betrayed their team!"] a t weapon
          (resolveWeapon w a (dictGet? st2 a) weapon).1
          (resolveWeapon w a (dictGet? st2 a) weapon).2.1 g := by
  unfold attackHit
  rw [selfOrBetrayal_ne st2 a t pa pt hne hpa hpt hteam]

/-- C6: an attack between two distinct participants sharing a team value
reassigns the attacker to the solo team named after its own resolved name on
both the hit and the miss branch, never touches the target's team (whenever
the target is still present in the final participants mapping), and any
Active state persisted by either branch is exactly that final mapping. -/
theorem betrayal_on_teammate_attack (w : World) (st2 : CombatState)
    (atkRes tgtRes weapon : String) (g : List Nat) (pa pt : Participant)
    (hne : atkRes ≠ tgtRes)
    (hpa : dictGet? st2 atkRes = some pa) (hpt : dictGet? st2 tgtRes = some pt)
    (hteam : pa.team = pt.team) :
    (dictGet? (attackHit w st2 atkRes tgtRes weapon g).finalState atkRes
        = some { pa with team := some atkRes } ∧
     (∀ pt', dictGet? (attackHit w st2 atkRes tgtRes weapon g).finalState tgtRes = some pt' →
        pt'.team = pt.team) ∧
     ((attackHit w st2 atkRes tgtRes weapon g).world.combat = none ∨
      (attackHit w st2 atkRes tgtRes weapon g).world.combat
        = some (attackHit w st2 atkRes tgtRes weapon g).finalState))
    ∧
    (dictGet? (attackMiss w st2 atkRes tgtRes weapon g).finalState atkRes
        = some { pa with team := some atkRes } ∧
     (∀ pt', dictGet? (attackMiss w st2 atkRes tgtRes weapon g).finalState tgtRes = some pt' →
        pt'.team = pt.team) ∧
     (attackMiss w st2 atkRes tgtRes weapon g).world.combat
        = some (attackMiss w st2 atkRes tgtRes weapon g).finalState) := by
  have hstep := attackHit_betray_step w st2 atkRes tgtRes weapon g pa pt hne hpa hpt hteam
  have htd : dictGet? (dictInsert st2 atkRes { pa with team := some atkRes }) tgtRes = some pt := by
    rw [dictGet?_insert_ne _ _ _ _ (Ne.symm hne)]
    exact hpt
  have hfs := attackHitCore_finalState w (dictInsert st2 atkRes { pa with team := some atkRes })
    [atkRes ++ " has betrayed their team!"] atkRes tgtRes weapon
    (resolveWeapon w atkRes (dictGet? st2 atkRes) weapon).1
    (resolveWeapon w atkRes (dictGet? st2 atkRes) weapon).2.1 g pt htd
  refine ⟨⟨?_, ?_, ?_⟩, ?_, ?_, ?_⟩
  · rw [hstep, hfs]
    by_cases hz : max 0 (pt.health - (rollDice
        ((resolveWeapon w atkRes (dictGet? st2 atkRes) weapon).1.getD "1") g).1) ≤ 0
    · rw [if_pos hz, dictGet?_erase_ne _ _ _ hne, dictGet?_insert_ne _ _ _ _ hne]
      exact dictGet?_insert_self _ _ _
    · rw [if_neg hz, dictGet?_insert_ne _ _ _ _ hne]
      exact dictGet?_insert_self _ _ _
  · rw [hstep, hfs]
    by_cases hz : max 0 (pt.health - (rollDice
        ((resolveWeapon w atkRes (dictGet? st2 atkRes) weapon).1.getD "1") g).1) ≤ 0
    · rw [if_pos hz]
      intro pt' hpt'
      rw [dictGet?_erase_self] at hpt'
      cases hpt'
    · rw [if_neg hz]
      intro pt' hpt'
      rw [dictGet?_insert_self] at hpt'
      cases hpt'
      rfl
  · rw [hstep]
    exact attackHitCore_combat_persist _ _ _ _ _ _ _ _ _
  · rw [attackMiss_betray_finalState w st2 atkRes tgtRes weapon g pa pt hpa hpt hteam]
    exact dictGet?_insert_self _ _ _
  · rw [attackMiss_betray_finalState w st2 atkRes tgtRes weapon g pa pt hpa hpt hteam]
    intro pt' hpt'
    rw [dictGet?_insert_ne _ _ _ _ (Ne.symm hne)] at hpt'
    rw [hpt] at hpt'
    cases hpt'
    rfl
  · rw [attackMiss_betray_finalState w st2 atkRes tgtRes weapon g pa pt hpa hpt hteam,
      attackMiss_betray_combat w st2 atkRes tgtRes weapon g pa pt hpa hpt hteam]

/-- Witness: a missed attack between the teammates hero and rival moves hero
onto its solo team and leaves rival's team unchanged. -/
theorem betrayal_on_teammate_attack_witness :
    dictGet? (attackMiss c6World c6State "hero" "rival" "fists" []).finalState "hero" =
      some (⟨10, 10, some 50, some "hero", none⟩ : Participant) ∧
    (attackMiss c6World c6State "hero" "rival" "fists" []).world.combat =
      some (attackMiss c6World c6State "hero" "rival" "fists" []).finalState :=
  ⟨(betrayal_on_teammate_attack c6World c6State "hero" "rival" "fists" []
      (⟨10, 10, some 50, some "T", none⟩ : Participant)
      (⟨8, 8, some 50, some "T", none⟩ : Participant)
      (by decide) (by decide) (by decide) (by decide)).2.1,
   (betrayal_on_teammate_attack c6World c6State "hero" "rival" "fists" []
      (⟨10, 10, some 50, some "T", none⟩ : Participant)
      (⟨8, 8, some 50, some "T", none⟩ : Participant)
      (by decide) (by decide) (by decide) (by decide)).2.2.2⟩

theorem rollDice_2d6_2_bounds (g : List Nat) :
    4 ≤ (rollDice "2d6+2" g).1 ∧ (rollDice "2d6+2" g).1 ≤ 14 := by
  have hparse : rollDice "2d6+2" g = (((rollN 2 6 g).1 : Int) + 2, (rollN 2 6 g).2) := rfl
  obtain ⟨h1, h2⟩ := rollN_bounds 2 6 g (by decide)
  rw [hparse]
  constructor <;> simp <;> omega

/-- C7 counterexample: a character record named like the template shadows it
inside get_participant_stats, so the spawned participant copies the record's
health and hit chance instead of rolling the template's hp formula and using
the fixed threat table (low would give 35, the record gives 99). -/
theorem spawn_copies_shadowing_npc_stats :
    (handleSpawnEnemy c7World "Wolf-1" "wolf" none [2, 3]).error = none ∧
    (handleSpawnEnemy c7World "Wolf-1" "wolf" none [2, 3]).world.combat =
      some [("Wolf-1", (⟨7, 9, some 99, some "Wolf-1", some "wolf"⟩ : Participant))] ∧
    threatLevelToHitChance "low" = 35 ∧
    c7Entry.threat_level = some "low" ∧
    (some (99 : Int) : Option Int) ≠ some 35 :=
  ⟨by decide, by decide, by decide, by decide, by decide⟩

/-- C7 (amended): when the template exists, the spawn name is not an Active
participant, and additionally no character record resolves (by slug or
keyword) to the template name, the spawned participant's health and
max_health both equal one fresh roll of the template's hp formula, its hit
chance is exactly the fixed threat-level table value, its team defaults to
the team argument or else the new name, and the template back-reference is
set; for the example formula 2d6+2 the roll always lies in [4, 14]. -/
theorem spawn_from_template_stats (w : World) (name bestiaryTemplate : String)
    (teamArg : Option String) (g : List Nat) (entry : BestiaryEntry)
    (hB : dictGet? w.bestiary (lowerStr bestiaryTemplate) = some entry)
    (hN : resolveNpcByKeyword w bestiaryTemplate = none)
    (hfresh : dictGet? (w.combat.getD []) name = none) :
    (handleSpawnEnemy w name bestiaryTemplate teamArg g).error = none ∧
    (handleSpawnEnemy w name bestiaryTemplate teamArg g).world.combat =
      some (dictInsert (w.combat.getD []) name
        { health := (rollDice entry.hp g).1,
          max_health := (rollDice entry.hp g).1,
          hit_chance := some (threatLevelToHitChance (entry.threat_level.getD "moderate")),
          team := some (teamArg.getD name),
          bestiary_template := some bestiaryTemplate }) ∧
    (entry.hp = "2d6+2" →
      4 ≤ (rollDice entry.hp g).1 ∧ (rollDice entry.hp g).1 ≤ 14) := by
  have hstats : getParticipantStats w bestiaryTemplate g =
      (some { health := (rollDice entry.hp g).1,
              max_health := (rollDice entry.hp g).1,
              hit_chance := some (threatLevelToHitChance (entry.threat_level.getD "moderate")),
              team := none, bestiary_template := none }, (rollDice entry.hp g).2) := by
    unfold getParticipantStats
    rw [hN, hB]
  have hmiss : (dictGet? (w.combat.getD []) name).isSome = false := by
    rw [hfresh]
    rfl
  refine ⟨?_, ?_, ?_⟩
  · unfold handleSpawnEnemy
    rw [hB]
    simp only [hmiss, Bool.false_eq_true, if_false, hstats]
  · unfold handleSpawnEnemy
    rw [hB]
    simp only [hmiss, Bool.false_eq_true, if_false, hstats]
  · intro hhp
    rw [hhp]
    exact rollDice_2d6_2_bounds g

/-- Witness: a clean spawn (no shadowing record) rolls the template hp and
lands in the attainable range. -/
theorem spawn_from_template_stats_witness :
    (handleSpawnEnemy c7wWorld "Wolf-1" "wolf" none [2, 3]).error = none ∧
    (4 ≤ (rollDice c7Entry.hp [2, 3]).1 ∧ (rollDice c7Entry.hp [2, 3]).1 ≤ 14) :=
  ⟨(spawn_from_template_stats c7wWorld "Wolf-1" "wolf" none [2, 3] c7Entry
      (by decide) (by decide) (by decide)).1,
   (spawn_from_template_stats c7wWorld "Wolf-1" "wolf" none [2, 3] c7Entry
      (by decide) (by decide) (by decide)).2.2 (by decide)⟩

/-- C8 counterexample: a character record that lacks an inventory key falls
through to the bestiary weapon map even though the attacker has a character
record, refuting the clause that only record-less attackers reach the
template weapons. -/
theorem inventoryless_record_falls_to_bestiary :
    dictGet? c8World.npcs "brute" = some c8Npc ∧
    c8Npc.inventory = none ∧
    resolveWeapon c8World "brute" none "club" = (some "1d8", false, none) ∧
    findItemCaseInsensitive c8Entry.weapons "club" = some "1d8" :=
  ⟨by decide, by decide, by decide, by decide⟩

/-- C8 (amended): when the attacker's record carries an inventory, a
case-insensitive inventory item flagged as a weapon with a truthy damage
formula always resolves to that formula — for every bestiary content, so an
identically named template weapon is never consulted; the fall-through to
the bestiary weapon map happens exactly for attackers with no character
record or whose record lacks an inventory key. -/
theorem weapon_inventory_precedence :
    (∀ (w : World) (name : String) (ad : Option Participant) (weapon : String)
       (npc : Npc) (inv : Inventory) (item : Item) (f : String),
      dictGet? w.npcs (slugify name) = some npc →
      npc.inventory = some inv →
      findItemCaseInsensitive inv.items weapon = some item →
      item.weapon = true → item.damage = some f → f ≠ "" →
      resolveWeapon w name ad weapon = (some f, false, none))
    ∧
    (∀ (w : World) (name : String) (ad : Option Participant) (weapon : String),
      dictGet? w.npcs (slugify name) = none →
      resolveWeapon w name ad weapon = resolveWeaponFallback name weapon
        (dictGet? w.bestiary (lowerStr (weaponBestiaryLookup ad name))))
    ∧
    (∀ (w : World) (name : String) (ad : Option Participant) (weapon : String) (npc : Npc),
      dictGet? w.npcs (slugify name) = some npc →
      npc.inventory = none →
      resolveWeapon w name ad weapon = resolveWeaponFallback name weapon
        (dictGet? w.bestiary (lowerStr (weaponBestiaryLookup ad name)))) := by
  refine ⟨?_, ?_, ?_⟩
  · intro w name ad weapon npc inv item f hn hi hf hw hd hne
    unfold resolveWeapon
    simp only [hn, hi]
    unfold resolveWeaponInventory
    simp only [hf, hw, hd]
    simp [truthyStr, hne]
  · intro w name ad weapon hn
    unfold resolveWeapon
    simp only [hn]
  · intro w name ad weapon npc hn hi
    unfold resolveWeapon
    simp only [hn, hi]

/-- Witness: an inventory Dagger (weapon, 1d4) beats an identically named
template weapon with a different formula, and the record-less fall-through
reaches the template map. -/
theorem weapon_inventory_precedence_witness :
    resolveWeapon c8wWorld "rogue" none "dagger" = (some "1d4", false, none) ∧
    resolveWeapon c8World "ghost-with-no-record" none "club" =
      resolveWeaponFallback "ghost-with-no-record" "club"
        (dictGet? c8World.bestiary (lowerStr "ghost-with-no-record")) :=
  ⟨weapon_inventory_precedence.1 c8wWorld "rogue" none "dagger" c8wNpc
      { money := 0, items := [("Dagger", { weapon := true, damage := some "1d4" })] }
      { weapon := true, damage := some "1d4" } "1d4"
      (by decide) (by decide) (by decide) (by decide) (by decide) (by decide),
   weapon_inventory_precedence.2.1 c8World "ghost-with-no-record" none "club" (by decide)⟩

theorem spanDigits_append (l : List Char) : (spanDigits l).1 ++ (spanDigits l).2 = l := by
  induction l with
  | nil => rfl
  | cons c rest ih =>
    by_cases h : c.isDigit
    · simp only [spanDigits, h, if_true]
      rcases hs : spanDigits rest with ⟨a, b⟩
      rw [hs] at ih
      simp only [hs]
      rw [List.cons_append, ih]
    · simp [spanDigits, h]

theorem hasChar_true_of_mem (l : List Char) (c : Char) (h : c ∈ l) : hasChar l c = true := by
  induction l with
  | nil => cases h
  | cons x rest ih =>
    unfold hasChar
    by_cases hx : x = c
    · simp [hx]
    · simp only [hx, if_false]
      rcases List.mem_cons.mp h with h1 | h1
      · exact absurd h1.symm hx
      · exact ih h1

theorem hasChar_d_false_of_digits (l : List Char) (h : l.all Char.isDigit = true) :
    hasChar l 'd' = false := by
  induction l with
  | nil => rfl
  | cons c rest ih =>
    rw [List.all_cons, Bool.and_eq_true] at h
    obtain ⟨h1, h2⟩ := h
    have hcd : ¬ (c = 'd') := by
      intro he
      rw [he] at h1
      exact absurd h1 (by decide)
    unfold hasChar
    simp only [hcd, if_false]
    exact ih h2

theorem matchDicePattern_hasChar (l : List Char) (x : Nat × Nat × Int × List Char)
    (h : matchDicePattern l = some x) : hasChar l 'd' = true := by
  have happ : (spanDigits l).1 ++ (spanDigits l).2 = l := spanDigits_append l
  unfold matchDicePattern at h
  split at h
  next a b heqpair =>
    split at h
    · rw [heqpair] at happ
      apply hasChar_true_of_mem
      rw [← happ]
      simp
    · exact Option.noConfusion h

theorem parseDiceFirst_matchDice (l : List Char) (c s : Nat) (m : Int)
    (h : parseDiceFirst l = some (c, s, m)) :
    matchDicePattern l = some (c, s, m, []) := by
  unfold parseDiceFirst at h
  split at h
  · next c' s' m' heq =>
    simp only [Option.some.injEq] at h
    injection h with hc hrest
    injection hrest with hs2 hm
    subst hc
    subst hs2
    subst hm
    exact heq
  · exact Option.noConfusion h

/-- C9 counterexample: the reversed formula 5+1d4 is parsed by roll (an
attainable outcome of 9 is exhibited) and its maximum attainable value is 9,
yet the ceiling computation inside both descriptors falls back to 6, so the
descriptor ceiling is not the formula's maximum attainable result. -/
theorem descriptor_max_misparses_reversed_form :
    descriptorMaxDamage "5+1d4" = 6 ∧
    descriptorMaxHealing "5+1d4" = 6 ∧
    rollDiceMax "5+1d4" = 9 ∧
    (rollDice "5+1d4" [3]).1 = 9 ∧
    (6 : Int) ≠ 9 :=
  ⟨by decide, by decide, by decide, by decide, by decide⟩

/-- C9 (amended): the descriptor ceilings agree with roll's parsing and with
the maximum attainable result for bare integers and for the anchored
dice-first forms XdY, XdY+Z, XdY-Z (count times sides plus the signed
modifier, with every roll bounded by it); for the modifier-first forms
Z+XdY and Z-XdY the descriptor parse fails and the ceiling falls back to
the constant 6. -/
theorem descriptor_max_on_dice_first_forms :
    (∀ (f : String) (c s : Nat) (m : Int),
      parseDiceFirst (normalizeFormula f) = some (c, s, m) → 0 < s →
      descriptorMaxDamage f = ((c * s : Nat) : Int) + m ∧
      descriptorMaxHealing f = ((c * s : Nat) : Int) + m ∧
      rollDiceMax f = ((c * s : Nat) : Int) + m ∧
      (∀ g : List Nat, (rollDice f g).1 ≤ ((c * s : Nat) : Int) + m))
    ∧
    (∀ f : String, isDigitStr (normalizeFormula f) = true →
      descriptorMaxDamage f = ((digitsToNat (normalizeFormula f)) : Int) ∧
      rollDiceMax f = ((digitsToNat (normalizeFormula f)) : Int) ∧
      descriptorMaxHealing f = descriptorMaxDamage f) := by
  constructor
  · intro f c s m hp hs
    have hmd : matchDicePattern (normalizeFormula f) = some (c, s, m, []) :=
      parseDiceFirst_matchDice _ _ _ _ hp
    have hchar : hasChar (normalizeFormula f) 'd' = true :=
      matchDicePattern_hasChar _ _ hmd
    have hdig : isDigitStr (normalizeFormula f) = false := by
      unfold isDigitStr
      cases hall : (normalizeFormula f).all Char.isDigit
      · simp
      · rw [hasChar_d_false_of_digits _ hall] at hchar
        cases hchar
    refine ⟨?_, ?_, ?_, ?_⟩
    · unfold descriptorMaxDamage
      simp only [hchar, if_true, hmd]
    · unfold descriptorMaxHealing
      simp only [hchar, if_true, hmd]
    · unfold rollDiceMax
      simp only [hdig, Bool.false_eq_true, if_false, hp]
    · intro g
      unfold rollDice
      simp only [hdig, Bool.false_eq_true, if_false, hp]
      rcases hr : rollN c s g with ⟨tot, g1⟩
      obtain ⟨h1, h2⟩ := rollN_bounds c s g hs
      rw [hr] at h1 h2
      simp only []
      omega
  · intro f hd
    have hall : (normalizeFormula f).all Char.isDigit = true := by
      unfold isDigitStr at hd
      rw [Bool.and_eq_true] at hd
      exact hd.2
    have hchar : hasChar (normalizeFormula f) 'd' = false :=
      hasChar_d_false_of_digits _ hall
    refine ⟨?_, ?_, ?_⟩
    · unfold descriptorMaxDamage
      simp only [hchar, Bool.false_eq_true, if_false, hd, if_true]
    · unfold rollDiceMax
      simp only [hd, if_true]
    · unfold descriptorMaxHealing descriptorMaxDamage
      simp only [hchar, Bool.false_eq_true, if_false, hd, if_true]

/-- Witness: the dice-first formula 2d6+2 gives every component ceiling 14
and every roll at most 14. -/
theorem descriptor_max_on_dice_first_forms_witness :
    descriptorMaxDamage "2d6+2" = 14 ∧ (rollDice "2d6+2" [5, 5]).1 ≤ 14 :=
  ⟨(descriptor_max_on_dice_first_forms.1 "2d6+2" 2 6 2 (by decide) (by decide)).1.trans
     (by decide),
   (descriptor_max_on_dice_first_forms.1 "2d6+2" 2 6 2 (by decide) (by decide)).2.2.2 [5, 5]⟩

theorem handleRemoveFromCombat_player (w : World) (name : String) (reasonArg : Option String)
    (st : CombatState) (hc : w.combat = some st) (hin : (dictGet? st name).isSome = true)
    (hp : isParticipantPlayer w name = true) :
    ∃ w1 : World, (w1 = handleParticipantDeath w name ∨ w1 = w) ∧
      (handleRemoveFromCombat w name reasonArg).world =
        { w1 with npcs := syncAllParticipantsHealth w1.npcs (dictErase st name),
                  combat := none } := by
  unfold handleRemoveFromCombat
  rw [hc]
  have hnone : (dictGet? st name).isNone = false := by
    cases hq : dictGet? st name
    · rw [hq] at hin
      cases hin
    · rfl
  simp only [hnone, Bool.false_eq_true, if_false]
  by_cases hr : reasonArg.getD "death" = "death"
  · refine ⟨handleParticipantDeath w name, Or.inl rfl, ?_⟩
    rw [if_pos hr]
    have hp1 : isParticipantPlayer (handleParticipantDeath w name) name = true :=
      isParticipantPlayer_death_true w name hp
    simp only [hp1, if_true]
    unfold endCombatForPlayer
    rfl
  · refine ⟨w, Or.inr rfl, ?_⟩
    rw [if_neg hr]
    simp only [hp, if_true]
    unfold endCombatForPlayer
    rfl

/-- C2: when the designated player — identified by the case-insensitive
campaign player name or a player keyword, either sufficing — leaves combat,
through removeFromCombat under any reason or through attack-induced death,
combat ends unconditionally: the Active record is deleted even if two or
more teams remain, and every remaining participant's health and max_health
are written back onto its character record whenever one exists (stated for
remaining participants with unambiguous slugs). -/
theorem player_departure_ends_combat :
    (∀ (w : World) (name : String) (reasonArg : Option String) (st : CombatState),
      w.combat = some st →
      (dictGet? st name).isSome = true →
      isParticipantPlayer w name = true →
      ((dictErase st name).map (fun q => slugify q.1)).Nodup →
      (handleRemoveFromCombat w name reasonArg).world.combat = none ∧
      (∀ n p, (n, p) ∈ dictErase st name →
        ∀ npc, dictGet? (handleRemoveFromCombat w name reasonArg).world.npcs (slugify n)
            = some npc →
          npc.health = some p.health ∧ npc.max_health = some p.max_health))
    ∧
    (∀ (w : World) (st3 : CombatState) (lines0 : List String)
       (atkRes tgtRes weapon : String) (fOpt : Option String) (isImp : Bool)
       (g g1 : List Nat) (td : Participant) (dmg : Int),
      dictGet? st3 tgtRes = some td →
      rollDice (fOpt.getD "1") g = (dmg, g1) →
      td.health ≤ dmg →
      isParticipantPlayer w tgtRes = true →
      ((dictErase st3 tgtRes).map (fun q => slugify q.1)).Nodup →
      (attackHitCore w st3 lines0 atkRes tgtRes weapon fOpt isImp g).world.combat = none ∧
      (∀ n p, (n, p) ∈ dictErase st3 tgtRes →
        ∀ npc, dictGet? (attackHitCore w st3 lines0 atkRes tgtRes weapon fOpt isImp g).world.npcs
            (slugify n) = some npc →
          npc.health = some p.health ∧ npc.max_health = some p.max_health)) := by
  constructor
  · intro w name reasonArg st hc hin hp hnd
    obtain ⟨w1, _, hworld⟩ := handleRemoveFromCombat_player w name reasonArg st hc hin hp
    rw [hworld]
    refine ⟨rfl, ?_⟩
    intro n p hmem npc hnpc
    exact syncAll_get_mem (dictErase st name) w1.npcs hnd n p hmem npc hnpc
  · intro w st3 lines0 atkRes tgtRes weapon fOpt isImp g g1 td dmg htd hroll hdead hp hnd
    have hw1 : isParticipantPlayer
        { w with npcs := syncNpcHealth w.npcs tgtRes (max 0 (td.health - dmg)) td.max_health }
        tgtRes = true := by
      rw [isParticipantPlayer_sync]
      exact hp
    have hw2 : isParticipantPlayer (handleParticipantDeath
        { w with npcs := syncNpcHealth w.npcs tgtRes (max 0 (td.health - dmg)) td.max_health }
        tgtRes) tgtRes = true := isParticipantPlayer_death_true _ _ hw1
    have hcond : max 0 (td.health - dmg) ≤ 0 :=
      max_le (le_refl 0) (by omega)
    unfold attackHitCore
    rcases hcx : randChoice hitLocations g1 with ⟨loc, g2⟩
    simp only [hroll, hcx, htd, Option.getD_some]
    rw [if_pos hcond, if_pos hw2, dictErase_insert_self]
    constructor
    · simp [endCombatForPlayer]
    · intro n p hmem npc hnpc
      apply syncAll_get_mem (dictErase st3 tgtRes) _ hnd n p hmem npc
      simpa [endCombatForPlayer] using hnpc

/-- Witness: removing the campaign player by fleeing ends a two-team fight
and syncs the orc's record, and a lethal hit on the player ends a
three-team fight. -/
theorem player_departure_ends_combat_witness :
    ((handleRemoveFromCombat c2World "Hero" (some "flee")).world.combat = none ∧
     ((⟨"Orc", [], some 3, some 9, some 50, none⟩ : Npc).health = some (3 : Int) ∧
      (⟨"Orc", [], some 3, some 9, some 50, none⟩ : Npc).max_health = some (9 : Int))) ∧
    (attackHitCore c2hWorld c2hState [] "Bandit" "Hero" "fists" (some "1d4") false
      [3]).world.combat = none :=
  ⟨⟨(player_departure_ends_combat.1 c2World "Hero" (some "flee") c2State
      (by decide) (by decide) (by decide) (by decide)).1,
    (player_departure_ends_combat.1 c2World "Hero" (some "flee") c2State
      (by decide) (by decide) (by decide) (by decide)).2 "Orc"
      (⟨3, 9, some 50, some "evil", none⟩ : Participant) (by decide)
      (⟨"Orc", [], some 3, some 9, some 50, none⟩ : Npc) (by decide)⟩,
   (player_departure_ends_combat.2 c2hWorld c2hState [] "Bandit" "Hero" "fists" (some "1d4")
      false [3] [] (⟨1, 10, some 50, some "good", none⟩ : Participant) 4
      (by decide) (by decide) (by decide) (by decide) (by decide)).1⟩
